/-
Verificación del núcleo de pronóstico híbrido (openmeteo_sqlite).

Incrustación superficial en Lean 4 del código fuente:
  - features/xgb_features.py  (preparar_features_xgb, generar_features_futuras)
  - features/muestreo.py      (muestreo_mensual)
  - pipeline/forecast.py      (predecir_hibrido y su potenciador geográfico)
  - pipeline/train.py         (entrenar_modelos)
  - db/database.py            (esquema de la tabla de observaciones)

Convenciones de la incrustación:
  - Las fechas (pandas Timestamp normalizado) se representan como número de
    días desde 1970-01-01 (`Int`); dayofyear/month/dayofweek se calculan con
    el calendario civil (algoritmo estándar de conversión días-fecha).
  - Los valores numéricos de pandas se representan en ℚ; un NaN de pandas se
    representa como `none : Option ℚ`.
  - Una columna ausente del DataFrame se representa con la bandera `has...`
    en `false`; acceder a una columna ausente produce `Except.error`
    (KeyError de pandas).
  - La columna `residuo_roll_std_r` del código contiene la desviación típica
    muestral (ddof=1), un irracional en general; aquí se representa por su
    cuadrado exacto (la varianza muestral, campo `residuo_roll_std2_r`),
    determinación biunívoca al ser la raíz cuadrada inyectiva en ℚ≥0.
    Ninguna reclamación compara desviaciones entre sí de otro modo.
  - Las columnas sin_doy/cos_doy (irracionales, funciones deterministas de
    dayofyear) figuran en la lista de nombres de columnas pero no llevan
    campo numérico propio; ninguna reclamación usa sus valores.
  - Los modelos SARIMA y XGBoost son artefactos opacos (fit/predict externos,
    fuera de alcance según la especificación §1); se representan como
    parámetros funcionales.
  - pandas `sort_values` con claves sin duplicados queda determinado por las
    claves; se modela con `List.insertionSort` (estable).
-/
import Mathlib

namespace OpenMeteo

/-! ## Calendario civil (pandas Timestamp → dayofyear / month / dayofweek) -/

/-- Conversión días-desde-época → (año, mes, día) del calendario gregoriano
(algoritmo civil estándar con división euclídea). -/
def civilDesdeDias (z : Int) : Int × Nat × Nat :=
  let z' : Int := z + 719468
  let era : Int := z'.ediv 146097
  let doe : Nat := (z'.emod 146097).toNat
  let yoe : Nat := (doe - doe / 1460 + doe / 36524 - doe / 146096) / 365
  let y : Int := (yoe : Int) + era * 400
  let doy : Nat := doe - (365 * yoe + yoe / 4 - yoe / 100)
  let mp : Nat := (5 * doy + 2) / 153
  let d : Nat := doy - (153 * mp + 2) / 5 + 1
  let m : Nat := if mp < 10 then mp + 3 else mp - 9
  (if m ≤ 2 then y + 1 else y, m, d)

/-- Año bisiesto gregoriano. -/
def esBisiesto (y : Int) : Bool :=
  (y.emod 4 = 0 && y.emod 100 ≠ 0) || y.emod 400 = 0

/-- Días acumulados antes del mes `m` (1-12) en año no bisiesto. -/
def diasAcumuladosMes (m : Nat) : Nat :=
  [0, 0, 31, 59, 90, 120, 151, 181, 212, 243, 273, 304, 334].getD m 0

/-- pandas `dt.dayofyear` del día `z` (días desde época). -/
def dayofyearDe (z : Int) : Nat :=
  let (y, m, d) := civilDesdeDias z
  diasAcumuladosMes m + d + (if 2 < m && esBisiesto y then 1 else 0)

/-- pandas `dt.month` del día `z`. -/
def monthDe (z : Int) : Nat := (civilDesdeDias z).2.1

/-- pandas `dt.dayofweek` del día `z` (lunes = 0; 1970-01-01 fue jueves = 3). -/
def dayofweekDe (z : Int) : Nat := ((z.emod 7 + 3).emod 7).toNat

/-! ## Modelo de datos: filas y DataFrames -/

/-- Una fila de la tabla de observaciones/trabajo. Se incluyen las columnas
que el núcleo lee o escribe; las demás columnas meteorológicas del esquema
(humedad, presión, etc.) son inertes para todas las reclamaciones y se
omiten. Un valor `none` representa NaN. -/
structure Fila where
  time : Int
  estacion : String
  temperature_2m_mean : Option ℚ := none
  wind_direction_10m_dominant : Option ℚ := none
  residuo : Option ℚ := none
  residuo_pred : Option ℚ := none
  sarima_pred : Option ℚ := none
  deriving Repr, DecidableEq

/-- Un DataFrame: presencia de columnas (las que el código consulta o puede
no tener) más la lista de filas. Cuando una bandera está en `false`, el campo
correspondiente de las filas carece de significado (la columna no existe). -/
structure DataFrame where
  hasTime : Bool := true
  hasEstacion : Bool := true
  hasResiduo : Bool := false
  hasResiduoPred : Bool := false
  hasSarimaPred : Bool := false
  filas : List Fila
  deriving Repr, DecidableEq

/-- Columnas básicas presentes en un `DataFrame` (en el orden del esquema). -/
def DataFrame.columnas (df : DataFrame) : List String :=
  (if df.hasTime then ["time"] else []) ++
    ["temperature_2m_mean", "wind_direction_10m_dominant"] ++
    (if df.hasEstacion then ["estacion"] else []) ++
    (if df.hasResiduo then ["residuo"] else []) ++
    (if df.hasResiduoPred then ["residuo_pred"] else []) ++
    (if df.hasSarimaPred then ["sarima_pred"] else [])

/-- Esquema de `database.py` (`crear_tabla_si_no_existe`): la tabla de
observaciones tiene time, estacion y columnas meteorológicas, pero ninguna
columna `residuo`, `residuo_pred` ni `sarima_pred`. -/
def dfDesdeBD (filas : List Fila) : DataFrame :=
  { hasTime := true, hasEstacion := true, hasResiduo := false,
    hasResiduoPred := false, hasSarimaPred := false, filas := filas }

/-! ## Orden de `sort_values` -/

/-- Clave de ordenación de `sort_values(["estacion", "time"])`. -/
def claveDe (f : Fila) : String × Int := (f.estacion, f.time)

/-- Orden lexicográfico (estación, fecha), el de
`df.sort_values(["estacion", "time"])`. -/
def leClave (a b : Fila) : Prop :=
  a.estacion < b.estacion ∨ (a.estacion = b.estacion ∧ a.time ≤ b.time)

instance : DecidableRel leClave := fun a b => by
  unfold leClave; infer_instance

instance : IsTotal Fila leClave := by
  constructor
  intro a b
  rcases lt_trichotomy a.estacion b.estacion with h | h | h
  · exact Or.inl (Or.inl h)
  · rcases le_total a.time b.time with h2 | h2
    · exact Or.inl (Or.inr ⟨h, h2⟩)
    · exact Or.inr (Or.inr ⟨h.symm, h2⟩)
  · exact Or.inr (Or.inl h)

instance : IsTrans Fila leClave := by
  constructor
  rintro a b c (h1 | ⟨h1, h1t⟩) (h2 | ⟨h2, h2t⟩)
  · exact Or.inl (h1.trans h2)
  · exact Or.inl (h2 ▸ h1)
  · exact Or.inl (h1 ▸ h2)
  · exact Or.inr ⟨h1.trans h2, h1t.trans h2t⟩

/-- `df.sort_values(["estacion", "time"])` (determinado por las claves). -/
def ordenarFilas (l : List Fila) : List Fila := List.insertionSort leClave l

/-- Orden por fecha, el de `df.sort_values("time")`. -/
def leTime (a b : Fila) : Prop := a.time ≤ b.time

instance : DecidableRel leTime := fun a b => by
  unfold leTime; infer_instance

instance : IsTotal Fila leTime := ⟨fun a b => le_total a.time b.time⟩

instance : IsTrans Fila leTime := ⟨fun _ _ _ h1 h2 => le_trans h1 h2⟩

/-- `df.sort_values("time")`. -/
def ordenarPorTime (l : List Fila) : List Fila := List.insertionSort leTime l

/-! ## Lags y rollings del residuo (xgb_features.py, líneas 74-89) -/

/-- Filas anteriores a la posición `i` con la misma estación que la fila `i`
(el grupo de `groupby("estacion")` restringido a posiciones previas). -/
def grupoPrevio (l : List Fila) (i : Nat) : List Fila :=
  match l.get? i with
  | some fi => (l.take i).filter (fun g => g.estacion = fi.estacion)
  | none => []

/-- Valor en la posición `i` de `df.groupby("estacion")["residuo"].shift(k)`
para `k ≥ 1`: el residuo del k-ésimo antecesor dentro del grupo, NaN si no
hay suficiente historia en el grupo. -/
def lagVal (l : List Fila) (k : Nat) (i : Nat) : Option ℚ :=
  let g := grupoPrevio l i
  if 1 ≤ k ∧ k ≤ g.length then (g.get? (g.length - k)).bind Fila.residuo
  else none

/-- La serie `serie = df.groupby("estacion")["residuo"].shift(1)`. -/
def serieVal (l : List Fila) (i : Nat) : Option ℚ := lagVal l 1 i

/-- Secuenciación: `some` de la lista de valores si ninguno es NaN. -/
def secuencia : List (Option ℚ) → Option (List ℚ)
  | [] => some []
  | none :: _ => none
  | some x :: resto => (secuencia resto).map (x :: ·)

/-- Ventana de `serie.rolling(r)` en la posición `i`: los valores de la serie
en las posiciones `i - r + 1 .. i` de TODO el DataFrame (el código aplica el
rolling a la serie completa, no por grupo). Solo se usa cuando `r ≤ i + 1`. -/
def ventana (l : List Fila) (r : Nat) (i : Nat) : List (Option ℚ) :=
  (List.range r).map (fun m => serieVal l (i + 1 - r + m))

/-- Media de una ventana completa de tamaño `r`. -/
def mediaDe (w : List ℚ) : ℚ := w.sum / (w.length : ℚ)

/-- Varianza muestral (ddof = 1), el cuadrado de `rolling(r).std()`. -/
def varMuestral (w : List ℚ) : ℚ :=
  let μ := mediaDe w
  (w.map (fun x => (x - μ) ^ 2)).sum / ((w.length - 1 : Nat) : ℚ)

/-- `serie.rolling(r).mean()` en la posición `i` (NaN si la ventana está
incompleta o contiene NaN; min_periods por defecto = r). -/
def rollMeanVal (l : List Fila) (r : Nat) (i : Nat) : Option ℚ :=
  if r ≤ i + 1 then (secuencia (ventana l r i)).map mediaDe else none

/-- Cuadrado de `serie.rolling(r).std()` en la posición `i`. -/
def rollVarVal (l : List Fila) (r : Nat) (i : Nat) : Option ℚ :=
  if r ≤ i + 1 then (secuencia (ventana l r i)).map varMuestral else none

/-! ## Fila de features -/

/-- Fila resultante de `preparar_features_xgb` antes del dropna: la fila
original más las columnas de features generadas. -/
structure FilaFeat where
  fila : Fila
  dayofyear : Nat
  month : Nat
  dayofweek : Nat
  residuo_lag_1 : Option ℚ
  residuo_lag_3 : Option ℚ
  residuo_lag_7 : Option ℚ
  residuo_lag_14 : Option ℚ
  residuo_roll_mean_3 : Option ℚ
  residuo_roll_std2_3 : Option ℚ
  residuo_roll_mean_7 : Option ℚ
  residuo_roll_std2_7 : Option ℚ
  residuo_roll_mean_14 : Option ℚ
  residuo_roll_std2_14 : Option ℚ
  deriving Repr, DecidableEq

/-- Fila de features calculada en la posición `i` de la tabla ordenada `l`
(con `fi` la fila en esa posición). -/
def featEn (l : List Fila) (i : Nat) (fi : Fila) : FilaFeat :=
  { fila := fi
    dayofyear := dayofyearDe fi.time
    month := monthDe fi.time
    dayofweek := dayofweekDe fi.time
    residuo_lag_1 := lagVal l 1 i
    residuo_lag_3 := lagVal l 3 i
    residuo_lag_7 := lagVal l 7 i
    residuo_lag_14 := lagVal l 14 i
    residuo_roll_mean_3 := rollMeanVal l 3 i
    residuo_roll_std2_3 := rollVarVal l 3 i
    residuo_roll_mean_7 := rollMeanVal l 7 i
    residuo_roll_std2_7 := rollVarVal l 7 i
    residuo_roll_mean_14 := rollMeanVal l 14 i
    residuo_roll_std2_14 := rollVarVal l 14 i }

instance : Inhabited Fila := ⟨{ time := 0, estacion := "" }⟩

/-- Fila de features de la posición `i` (total: fuera de rango se usa una
fila por defecto, caso inalcanzable al iterar sobre las posiciones). -/
def featOpcional (l : List Fila) (i : Nat) : FilaFeat :=
  match l.get? i with
  | some fi => featEn l i fi
  | none => featEn l i default

/-- Features de todas las posiciones de la tabla ordenada `l` (las líneas
59-89 de xgb_features.py, antes de la limpieza final). -/
def computarFeats (l : List Fila) : List FilaFeat :=
  (List.range l.length).map (featOpcional l)

/-- Todas las columnas de lag y rolling tienen valor (no NaN). -/
def lagRollCompletos (f : FilaFeat) : Bool :=
  f.residuo_lag_1.isSome && f.residuo_lag_3.isSome &&
    f.residuo_lag_7.isSome && f.residuo_lag_14.isSome &&
    f.residuo_roll_mean_3.isSome && f.residuo_roll_std2_3.isSome &&
    f.residuo_roll_mean_7.isSome && f.residuo_roll_std2_7.isSome &&
    f.residuo_roll_mean_14.isSome && f.residuo_roll_std2_14.isSome

/-- Proyección de las features de lag y rolling de una fila (las columnas
cuyo nombre contiene `lag_` o `roll_`). -/
def lagRollDe (f : FilaFeat) : List (Option ℚ) :=
  [f.residuo_lag_1, f.residuo_lag_3, f.residuo_lag_7, f.residuo_lag_14,
   f.residuo_roll_mean_3, f.residuo_roll_std2_3,
   f.residuo_roll_mean_7, f.residuo_roll_std2_7,
   f.residuo_roll_mean_14, f.residuo_roll_std2_14]

/-- Nombres de las columnas de features añadidas por
`preparar_features_xgb` (en el orden de creación del código). -/
def columnasFeatures : List String :=
  ["dayofyear", "month", "dayofweek", "sin_doy", "cos_doy",
   "residuo_lag_1", "residuo_lag_3", "residuo_lag_7", "residuo_lag_14",
   "residuo_roll_mean_3", "residuo_roll_std_3",
   "residuo_roll_mean_7", "residuo_roll_std_7",
   "residuo_roll_mean_14", "residuo_roll_std_14"]

/-- Tabla de features devuelta por `preparar_features_xgb`. -/
structure TablaFeatures where
  columnas : List String
  filas : List FilaFeat
  deriving Repr, DecidableEq

/-! ## preparar_features_xgb (xgb_features.py, líneas 24-113) -/

/-- Condición del `dropna` final: en entrenamiento se exige `residuo` no nulo
y todas las columnas de lag/rolling no nulas; fuera de entrenamiento, solo
las columnas de lag/rolling (que figuran en el subset del dropna en AMBOS
modos). -/
def filaSuperviviente (modo_entrenamiento : Bool) (f : FilaFeat) : Bool :=
  (!modo_entrenamiento || f.fila.residuo.isSome) && lagRollCompletos f

/-- Incrustación de `preparar_features_xgb(df, modo_entrenamiento)`.

Orden de los errores, como en el código: `sort_values(["estacion","time"])`
lanza KeyError si falta `estacion` o `time` (línea 53); después
`df.groupby("estacion")["residuo"]` lanza KeyError si falta `residuo`
(línea 80), en ambos modos. La asignación `astype(float)` de `sarima_pred`
es la identidad sobre ℚ y no se representa. -/
def preparar_features_xgb (df : DataFrame) (modo_entrenamiento : Bool) :
    Except String TablaFeatures :=
  if ¬ (df.hasEstacion ∧ df.hasTime) then
    .error "KeyError: sort_values estacion/time"
  else if ¬ df.hasResiduo then
    .error "KeyError: Column not found: residuo"
  else
    let orden := ordenarFilas df.filas
    let feats := computarFeats orden
    .ok { columnas := df.columnas ++ columnasFeatures
          filas := feats.filter (filaSuperviviente modo_entrenamiento) }

/-- Filas de un resultado de `preparar_features_xgb` (vacías si hubo error). -/
def filasDe (t : Except String TablaFeatures) : List FilaFeat :=
  match t with
  | .ok tabla => tabla.filas
  | .error _ => []

/-- El resultado es un error. -/
def esError {α : Type} (e : Except String α) : Bool :=
  match e with
  | .ok _ => false
  | .error _ => true

/-! ## generar_features_futuras (xgb_features.py, líneas 119-198)

Función del "FIX DEFINITIVO" para el forecast; ningún módulo del repositorio
la invoca (forecast.py usa `preparar_features_xgb`), pero la reclamación
sobre el modo de inferencia la cita. -/

/-- Indexación de listas de Python (índices negativos cuentan desde el
final; fuera de rango es IndexError = `none`). -/
def indicePython {α : Type} (l : List α) (i : Int) : Option α :=
  if 0 ≤ i then l.get? i.toNat
  else if (-i).toNat ≤ l.length then l.get? (l.length - (-i).toNat)
  else none

/-- Incrustación de `generar_features_futuras(historial, sarima_preds, step)`.
Devuelve la única fila de features del paso futuro. Nótese que la "fecha"
usada para las features temporales es la fecha de la ÚLTIMA FILA DEL
HISTORIAL (línea 155 del código), no la fecha futura. Los lags y rollings se
toman de la serie `residuo_base` completa (sin agrupar por estación):
`residuo_pred` si la columna existe, si no `residuo`, y si tampoco existe,
la constante 0 (primer paso del forecast). -/
def generar_features_futuras (historial : DataFrame) (sarima_preds : List ℚ)
    (step : Nat) : Except String FilaFeat :=
  let df := ordenarFilas historial.filas
  match df.getLast? with
  | none => .error "IndexError: historial vacio"
  | some ultima =>
    let fecha := ultima.time
    match indicePython sarima_preds ((step : Int) - 1) with
    | none => .error "IndexError: sarima_preds"
    | some sp =>
      let base : List (Option ℚ) :=
        if historial.hasResiduoPred then df.map (·.residuo_pred)
        else if historial.hasResiduo then df.map (·.residuo)
        else df.map (fun _ => some 0)
      let n := df.length
      let lagUlt := fun (k : Nat) =>
        if k < n then base.getD (n - 1 - k) none else none
      let serieUlt := fun (j : Nat) =>
        if 1 ≤ j then base.getD (j - 1) none else none
      let ventanaUlt := fun (r : Nat) =>
        (List.range r).map (fun m => serieUlt (n - r + m))
      let rollMeanUlt := fun (r : Nat) =>
        if r ≤ n then (secuencia (ventanaUlt r)).map mediaDe else none
      let rollVarUlt := fun (r : Nat) =>
        if r ≤ n then (secuencia (ventanaUlt r)).map varMuestral else none
      .ok { fila := { ultima with sarima_pred := some sp }
            dayofyear := dayofyearDe fecha
            month := monthDe fecha
            dayofweek := dayofweekDe fecha
            residuo_lag_1 := lagUlt 1
            residuo_lag_3 := lagUlt 3
            residuo_lag_7 := lagUlt 7
            residuo_lag_14 := lagUlt 14
            residuo_roll_mean_3 := rollMeanUlt 3
            residuo_roll_std2_3 := rollVarUlt 3
            residuo_roll_mean_7 := rollMeanUlt 7
            residuo_roll_std2_7 := rollVarUlt 7
            residuo_roll_mean_14 := rollMeanUlt 14
            residuo_roll_std2_14 := rollVarUlt 14 }

/-! ## Potenciador geográfico y redondeos (forecast.py, líneas 104-130) -/

/-- Redondeo al entero más próximo con empate al par (el `round` de Python
sobre valores exactos). -/
def redondeoBanco (q : ℚ) : ℤ :=
  let n := ⌊q⌋
  let f := q - n
  if f < 1 / 2 then n
  else if 1 / 2 < f then n + 1
  else if Even n then n else n + 1

/-- Python `round(q, 2)` idealizado sobre ℚ. -/
def round2 (q : ℚ) : ℚ := (redondeoBanco (q * 100) : ℚ) / 100

/-- Python `round(q, 0)` idealizado sobre ℚ. -/
def round0 (q : ℚ) : ℚ := (redondeoBanco q : ℚ)

/-- Potenciador específico (lógica de vientos, forecast.py líneas 106-118):
si la meteorología del paso es real y la dirección dominante del viento cae
en la banda sur [160, 220], el residuo se multiplica por 1.6; si cae en la
banda norte (≤ 40 o ≥ 320), por 1.4; en cualquier otro caso (incluida una
dirección NaN, con la que toda comparación de Python es falsa) y siempre que
la meteorología sea de persistencia, el residuo queda tal cual. Los
literales flotantes 1.6 y 1.4 se idealizan como 8/5 y 7/5. No hay ninguna
acotación (clamp) del resultado. -/
def potenciador (es_meteo_real : Bool) (v_dir : Option ℚ) (residuo_pred : ℚ) : ℚ :=
  if es_meteo_real then
    match v_dir with
    | some d =>
        if 160 ≤ d ∧ d ≤ 220 then residuo_pred * (8 / 5)
        else if d ≤ 40 ∨ 320 ≤ d then residuo_pred * (7 / 5)
        else residuo_pred
    | none => residuo_pred
  else residuo_pred

/-! ## predecir_hibrido (forecast.py, líneas 33-137) -/

/-- Parámetros de `predecir_hibrido`: los artefactos cargados (modelo SARIMA
y corrector XGBoost con su lista de features, opacos según la
especificación), la ciudad, la fecha "hoy" (`pd.Timestamp.now().normalize()`)
y el DataFrame devuelto por `load_from_db(estacion=ciudad)`. -/
structure ParamsForecast where
  sarima : Nat → ℚ
  xgbPredict : FilaFeat → ℚ
  features_names : List String
  ciudad : String
  hoy : Int
  df_all : DataFrame

/-- Fila del DataFrame de resultados (valores redondeados como en las
líneas 125-130 del código). -/
structure FilaForecast where
  fecha : Int
  sarima : ℚ
  viento_dir : Option ℚ
  hibrida : ℚ
  deriving Repr, DecidableEq

/-- Salida de una iteración del bucle recursivo, con los valores intermedios
del cuerpo del bucle (líneas 72-135) y el historial dinámico resultante. -/
structure PasoSalida where
  resultado : FilaForecast
  nueva_fila : Fila
  es_meteo_real : Bool
  residuo_pred : ℚ
  residuo_final : ℚ
  pred_final : ℚ
  df_dinamico : List Fila
  deriving Repr, DecidableEq

/-- Una iteración `i` del bucle de predicción recursiva. Si hay fila de
pronóstico externo para la fecha objetivo se usa (meteorología real); si no,
se repite la última fila del historial dinámico (persistencia). La fila
nueva toma la fecha objetivo, la predicción SARIMA como semilla de
temperatura y la ciudad; las features se recalculan con
`preparar_features_xgb(·, modo_entrenamiento=False)` sobre
historial + fila nueva y se toma la última fila superviviente. Tras el
potenciador, la predicción final se reinyecta como historia sintética. -/
def pasoForecast (p : ParamsForecast) (df_futuro : List Fila)
    (dinamico : List Fila) (i : Nat) : Except String PasoSalida :=
  let fecha : Int := p.hoy + (i : Int) + 1
  let pred_base := p.sarima i
  let meteo := df_futuro.filter (fun f => f.time = fecha)
  let br : Option Fila × Bool := match meteo.head? with
    | some r => (some r, true)
    | none => (dinamico.getLast?, false)
  let nuevaFilaDe := fun (b : Fila) =>
    { b with time := fecha, sarima_pred := some pred_base,
             temperature_2m_mean := some pred_base, estacion := p.ciudad }
  let filasNuevas := match br.1 with
    | some b => [nuevaFilaDe b]
    | none => []
  let dfTemp : DataFrame :=
    { p.df_all with hasSarimaPred := true, filas := dinamico ++ filasNuevas }
  match preparar_features_xgb dfTemp false with
  | .error e => .error e
  | .ok temp_feat =>
    if ¬ p.features_names.all (fun c => temp_feat.columnas.contains c) then
      .error "KeyError: features ausentes en la matriz de inferencia"
    else
      match temp_feat.filas.getLast?, br.1 with
      | some fila_input, some b =>
        let nf := nuevaFilaDe b
        let residuo_pred := p.xgbPredict fila_input
        let v_dir := nf.wind_direction_10m_dominant
        let residuo_final := potenciador br.2 v_dir residuo_pred
        let pred_final := pred_base + residuo_final
        let nfFinal := { nf with temperature_2m_mean := some pred_final }
        .ok { resultado := { fecha := fecha, sarima := round2 pred_base,
                             viento_dir := v_dir.map round0,
                             hibrida := round2 pred_final }
              nueva_fila := nfFinal
              es_meteo_real := br.2
              residuo_pred := residuo_pred
              residuo_final := residuo_final
              pred_final := pred_final
              df_dinamico := dinamico ++ [nfFinal] }
      | _, _ => .error "IndexError: prediccion sobre entrada vacia"

/-- Bucle recursivo de predicción: `n` pasos restantes empezando en el
índice `i`, con historial dinámico `din`. -/
def buclePrediccion (p : ParamsForecast) (df_futuro : List Fila) :
    Nat → Nat → List Fila → Except String (List FilaForecast)
  | 0, _, _ => .ok []
  | n + 1, i, din =>
    match pasoForecast p df_futuro din i with
    | .error e => .error e
    | .ok s =>
      match buclePrediccion p df_futuro n (i + 1) s.df_dinamico with
      | .error e => .error e
      | .ok resto => .ok (s.resultado :: resto)

/-- Incrustación de `predecir_hibrido(ciudad, dias_forecast, modo)`: ordena
las observaciones por fecha, separa historial (`time < hoy`) y pronóstico
externo (`time ≥ hoy`) y ejecuta el bucle recursivo. -/
def predecir_hibrido (p : ParamsForecast) (dias_forecast : Nat) :
    Except String (List FilaForecast) :=
  let ordenado := ordenarPorTime p.df_all.filas
  let df_hist := ordenado.filter (fun f => f.time < p.hoy)
  let df_futuro := ordenado.filter (fun f => p.hoy ≤ f.time)
  buclePrediccion p df_futuro dias_forecast 0 df_hist

/-! ## muestreo_mensual (muestreo.py, líneas 29-71) -/

/-- Clave de agrupación (año, mes) de `groupby([dt.year, dt.month])`. -/
def claveMes (z : Int) : Int × Nat :=
  ((civilDesdeDias z).1, (civilDesdeDias z).2.1)

/-- Orden lexicográfico de claves (año, mes); pandas devuelve los grupos
ordenados por clave ascendente (sort=True por defecto). -/
def leMes (a b : Int × Nat) : Prop := a.1 < b.1 ∨ (a.1 = b.1 ∧ a.2 ≤ b.2)

instance : DecidableRel leMes := fun a b => by
  unfold leMes; infer_instance

instance : IsTotal (Int × Nat) leMes := by
  constructor
  intro a b
  rcases lt_trichotomy a.1 b.1 with h | h | h
  · exact Or.inl (Or.inl h)
  · rcases le_total a.2 b.2 with h2 | h2
    · exact Or.inl (Or.inr ⟨h, h2⟩)
    · exact Or.inr (Or.inr ⟨h.symm, h2⟩)
  · exact Or.inr (Or.inl h)

instance : IsTrans (Int × Nat) leMes := by
  constructor
  rintro a b c (h1 | ⟨h1, h1t⟩) (h2 | ⟨h2, h2t⟩)
  · exact Or.inl (h1.trans h2)
  · exact Or.inl (h2 ▸ h1)
  · exact Or.inl (h1 ▸ h2)
  · exact Or.inr ⟨h1.trans h2, h1t.trans h2t⟩

/-- Semántica de `x.iloc[-d:]`: las últimas `d` filas, salvo `d = 0`, en
cuyo caso `-0 = 0` y la rebanada es el DataFrame entero. -/
def colaIloc (d : Nat) (g : List Fila) : List Fila :=
  if d = 0 then g else g.drop (g.length - d)

/-- Incrustación de `muestreo_mensual(df, dias_por_mes)`: ordena por fecha,
agrupa por (año, mes) — SIN distinguir estaciones — y de cada grupo con al
menos `dias_por_mes` filas conserva las últimas `dias_por_mes`
cronológicamente; los grupos menores quedan enteros. Los grupos se emiten
en orden ascendente de clave, cada uno en el orden del DataFrame ordenado. -/
def muestreo_mensual (filas : List Fila) (dias_por_mes : Nat) : List Fila :=
  let orden := ordenarPorTime filas
  let claves := List.insertionSort leMes (orden.map (fun f => claveMes f.time)).dedup
  claves.flatMap (fun k =>
    let g := orden.filter (fun f => claveMes f.time = k)
    if dias_por_mes ≤ g.length then colaIloc dias_por_mes g else g)

/-! ## entrenar_modelos (train.py, líneas 30-133) -/

/-- Fila cruda de `load_from_db(estacion=None)` tras
`pd.to_datetime(errors="coerce")`: la fecha puede ser inválida (NaT). -/
structure FilaBD where
  time : Option Int
  temperature_2m_mean : Option ℚ := none
  wind_direction_10m_dominant : Option ℚ := none
  estacion : String
  deriving Repr, DecidableEq

/-- Parámetros de `entrenar_modelos`: los datos cargados y el adaptador
SARIMA opaco. `insample c t` es el valor de
`get_prediction(dynamic=False).predicted_mean` de la ciudad `c` tras
`reindex` sobre la fecha `t` (un `none` representa un hueco del reindex).
El ajuste XGBoost (`entrenar_xgboost_train_only`) es igualmente opaco y no
influye en las condiciones de aborto, que son lo reclamado. -/
structure ParamsTrain where
  datos : List FilaBD
  insample : String → Int → Option ℚ

/-- Limpieza básica de train.py (líneas 49-51): coerción de fechas,
descarte de filas sin temperatura o sin fecha válida y orden temporal. -/
def limpiarCarga (datos : List FilaBD) : List Fila :=
  ordenarPorTime (datos.filterMap (fun r =>
    match r.time, r.temperature_2m_mean with
    | some t, some temp =>
        some { time := t, estacion := r.estacion,
               temperature_2m_mean := some temp,
               wind_direction_10m_dominant := r.wind_direction_10m_dominant }
    | _, _ => none))

/-- Número de filas limpias de una ciudad. -/
def cuentaCiudad (l : List Fila) (c : String) : Nat :=
  (l.filter (fun f => f.estacion = c)).length

/-- Una ciudad se ajusta si tiene al menos 2 años de datos (≥ 730 filas);
si no, se omite (líneas 78-80). -/
def ciudadAjustada (l : List Fila) (c : String) : Prop :=
  730 ≤ cuentaCiudad l c

instance (l : List Fila) (c : String) : Decidable (ciudadAjustada l c) := by
  unfold ciudadAjustada; infer_instance

/-- Columna `sarima_pred` tras el bucle por ciudades: `pd.NA` inicial y,
para cada ciudad ajustada, la predicción in-sample realineada por fecha
(línea 97; las asignaciones por ciudad tocan filas disjuntas). -/
def conSarima (p : ParamsTrain) : List Fila :=
  let limpio := limpiarCarga p.datos
  limpio.map (fun f =>
    if 730 ≤ cuentaCiudad limpio f.estacion then
      { f with sarima_pred := p.insample f.estacion f.time }
    else f)

/-- DataFrame global tras descartar filas sin `sarima_pred` (línea 100) y
calcular `residuo = temperature_2m_mean - sarima_pred` (línea 106). -/
def dfEntrenamiento (p : ParamsTrain) : DataFrame :=
  { hasTime := true, hasEstacion := true, hasResiduo := true,
    hasResiduoPred := false, hasSarimaPred := true,
    filas := ((conSarima p).filter (fun f => f.sarima_pred.isSome)).map (fun f =>
      { f with residuo :=
          match f.temperature_2m_mean, f.sarima_pred with
          | some a, some b => some (a - b)
          | _, _ => none }) }

/-- Ciudades en orden de primera aparición (`df["estacion"].unique()`). -/
def unicos (l : List String) : List String :=
  l.foldl (fun acc c => if acc.contains c then acc else acc ++ [c]) []

/-- Resultado de un entrenamiento que no aborta: las ciudades con SARIMA
ajustado y la matriz de features sobre la que se ajusta el XGBoost global. -/
structure ResultadoTrain where
  ciudades_ajustadas : List String
  matriz : TablaFeatures
  deriving Repr, DecidableEq

/-- Incrustación de `entrenar_modelos()`: aborta si no hay filas limpias
(líneas 53-54) o si la matriz de features queda vacía tras el filtrado en
modo entrenamiento (líneas 114-115); en otro caso ajusta el XGBoost
multiciudad (opaco) y termina. -/
def entrenar_modelos (p : ParamsTrain) : Except String ResultadoTrain :=
  let limpio := limpiarCarga p.datos
  if limpio.isEmpty then .error "No hay datos validos en la base."
  else
    match preparar_features_xgb (dfEntrenamiento p) true with
    | .error e => .error e
    | .ok tabla =>
      if tabla.filas.isEmpty then
        .error "df_feat esta vacio tras preparar_features_xgb()."
      else
        .ok { ciudades_ajustadas :=
                (unicos ((limpiarCarga p.datos).map (·.estacion))).filter
                  (fun c => decide (ciudadAjustada (limpiarCarga p.datos) c))
              matriz := tabla }

/-! ## Modelo con memoria para la no mutación del argumento (C10) -/

/-- Versión con memoria explícita de `preparar_features_xgb`: la memoria es
una lista de celdas con DataFrames y `ref` la celda del argumento. La línea
50 del código (`df = df.copy()`) hace que el nombre local apunte a una celda
NUEVA con el mismo valor; todas las operaciones posteriores del cuerpo
(reordenación de la línea 53 y escrituras de columnas de las líneas 59-89)
actúan sobre esa celda nueva, que se materializa al final de la memoria. La
celda `ref` del llamante no se escribe nunca. -/
def preparar_features_xgb_ref (memoria : List DataFrame) (ref : Nat)
    (modo : Bool) : List DataFrame × Except String TablaFeatures :=
  match memoria.get? ref with
  | none => (memoria, .error "NameError: referencia invalida")
  | some df =>
      let celdaTrabajo : DataFrame := { df with filas := ordenarFilas df.filas }
      (memoria ++ [celdaTrabajo], preparar_features_xgb df modo)

/-! ## Operaciones auxiliares usadas por los enunciados -/

/-- Cambio del residuo de la fila en la posición `t` de la tabla de entrada
(fuera de rango, la tabla queda igual). -/
def actualizaResiduo (l : List Fila) (t : Nat) (v : Option ℚ) : List Fila :=
  match l.get? t with
  | some f => l.set t { f with residuo := v }
  | none => l

/-- Clave (estación, fecha) de la fila en la posición `t` de la entrada. -/
def claveEn (l : List Fila) (t : Nat) : String × Int :=
  match l.get? t with
  | some f => claveDe f
  | none => ("", 0)

/-- Features de lag y rolling de la primera fila de una tabla de features
con la clave (estación, fecha) dada. -/
def buscaLagRoll (feats : List FilaFeat) (k : String × Int) :
    Option (List (Option ℚ)) :=
  (feats.find? (fun f => decide (claveDe f.fila = k))).map lagRollDe

/-! ## Datos de ejemplo para contraejemplos y testigos -/

/-- Observación mínima de ejemplo. -/
def filaEj : Fila := { time := 0, estacion := "a", residuo := some 1 }

/-- DataFrame de una fila sin columna `residuo`. -/
def dfEjSinResiduo : DataFrame := { hasResiduo := false, filas := [filaEj] }

/-- DataFrame de una fila con columna `residuo`. -/
def dfEjConResiduo : DataFrame := { hasResiduo := true, filas := [filaEj] }

/-- Historial de ejemplo sin columnas de residuo (camino de sustitución por
cero de `generar_features_futuras`). -/
def dfEjGenerar : DataFrame := { filas := [filaEj] }

/-- Observación histórica con el esquema de la base de datos. -/
def filaEjBD : Fila :=
  { time := 9, estacion := "santander", temperature_2m_mean := some 14 }

/-- Parámetros de forecast sobre datos con el esquema de la base de datos
(sin columna `residuo`), como los produce `load_from_db`. -/
def pEjemploBD : ParamsForecast :=
  { sarima := fun _ => 12, xgbPredict := fun _ => 1, features_names := [],
    ciudad := "santander", hoy := 10, df_all := dfDesdeBD [filaEjBD] }

/-- Historial de 16 días con residuo conocido (suficiente historia para que
la fila objetivo supere el dropna de inferencia). -/
def histEj16 : List Fila :=
  (List.range 16).map (fun i =>
    { time := (i : Int), estacion := "santander",
      temperature_2m_mean := some 10, residuo := some 0 })

/-- Fila de pronóstico externo (viento del sur) para la fecha objetivo. -/
def filaFuturoEj : Fila :=
  { time := 17, estacion := "santander",
    wind_direction_10m_dominant := some 180 }

/-- Parámetros de forecast con historia suficiente y columna `residuo`. -/
def pEjemploOk : ParamsForecast :=
  { sarima := fun _ => 10, xgbPredict := fun _ => 1,
    features_names := ["residuo_lag_1"], ciudad := "santander", hoy := 16,
    df_all := { hasResiduo := true, filas := histEj16 ++ [filaFuturoEj] } }

/-- Dos estaciones distintas con sendas observaciones del mismo mes
(enero de 1970). -/
def filaMesA : Fila := { time := 0, estacion := "a" }

/-- Segunda estación, un día después, mismo mes. -/
def filaMesB : Fila := { time := 1, estacion := "b" }

/-- Parámetros de entrenamiento sin datos. -/
def pEjemploVacio : ParamsTrain := { datos := [], insample := fun _ _ => none }

/-- Tabla de dos días de una estación, con claves distintas. -/
def filasEjDosDias : List Fila :=
  [{ time := 0, estacion := "a", residuo := some 2 },
   { time := 1, estacion := "a", residuo := some 5 }]

/-! # Reclamaciones

Cada reclamación de la especificación se resuelve con un teorema (y, cuando
procede, contraejemplo y testigo) sobre las incrustaciones anteriores. -/

/-- C4 (contraejemplo): la reclamación afirma que el residuo corregido por
la capa geográfica queda siempre dentro de un rango numérico fijo explícito
(clamp). Es falsa: el potenciador de forecast.py (líneas 104-121) solo
multiplica por 1.6, 1.4 o 1 y no acota nada; para cualquier candidato a
cota superior `hi`, el residuo bruto `hi + 1` con meteorología de
persistencia sale tal cual y la supera. -/
theorem c4_sin_clamp_contraejemplo :
    ¬ ∃ lo hi : ℚ, ∀ (b : Bool) (d : Option ℚ) (r : ℚ),
        lo ≤ potenciador b d r ∧ potenciador b d r ≤ hi := by
  rintro ⟨lo, hi, h⟩
  have h1 := (h false none (hi + 1)).2
  simp only [potenciador, if_neg Bool.false_ne_true] at h1
  simp at h1
  linarith

/-- C4 (enmendada): no existe un clamp absoluto; la única cota es relativa
al residuo bruto: el residuo corregido por el potenciador tiene magnitud a
lo sumo 8/5 (= 1.6) veces la del residuo bruto, para cualquier dirección y
cualquier bandera de meteorología real. -/
theorem c4_cota_relativa_potenciador :
    ∀ (b : Bool) (d : Option ℚ) (r : ℚ),
      |potenciador b d r| ≤ (8 / 5) * |r| := by
  intro b d r
  have h0 : (0 : ℚ) ≤ |r| := abs_nonneg r
  have h1 : |r| ≤ (8 / 5) * |r| := by linarith
  have h85 : |r * (8 / 5)| = |r| * (8 / 5) := by
    rw [abs_mul, abs_of_nonneg (by norm_num : (0:ℚ) ≤ 8 / 5)]
  have h75 : |r * (7 / 5)| = |r| * (7 / 5) := by
    rw [abs_mul, abs_of_nonneg (by norm_num : (0:ℚ) ≤ 7 / 5)]
  unfold potenciador
  split
  · split
    · split_ifs with hA hB
      · rw [h85]; linarith
      · rw [h75]; linarith
      · exact h1
    · exact h1
  · exact h1

/-- C6 (contraejemplo): la reclamación afirma que en modo inferencia la
ausencia de la columna `residuo` no es un error. Es falsa: la línea 80 de
xgb_features.py (`df.groupby("estacion")["residuo"]`) se ejecuta en ambos
modos y lanza KeyError si la columna no existe; aquí, un DataFrame con
`time` y `estacion` pero sin `residuo` produce error con
`modo_entrenamiento = False`. -/
theorem c6_residuo_requerido_en_inferencia_contraejemplo :
    preparar_features_xgb dfEjSinResiduo false
      = .error "KeyError: Column not found: residuo" := by rfl

/-- C6 (enmendada): `preparar_features_xgb` señala error exactamente cuando
falta alguna de las columnas `time`, `estacion` o `residuo`, y la columna
`residuo` es obligatoria en AMBOS modos (no solo en entrenamiento). -/
theorem c6_error_si_y_solo_si_columnas :
    ∀ (df : DataFrame) (modo : Bool),
      esError (preparar_features_xgb df modo)
        = (!df.hasTime || !df.hasEstacion || !df.hasResiduo) := by
  intro df modo
  rcases df with ⟨ht, he, hr, hrp, hs, filas⟩
  cases ht <;> cases he <;> cases hr <;>
    simp [preparar_features_xgb, esError]

/-- C1 (code_bug): la reclamación dice que `predecir_hibrido` con horizonte
N ≥ 1 devuelve exactamente N filas con fechas consecutivas; es la intención
evidente del código (y de su docstring), pero el código la incumple para
toda localización: `load_from_db` devuelve la tabla del esquema de
database.py, que no tiene columna `residuo`, y `preparar_features_xgb`
la exige también en modo inferencia (línea 80), de modo que el primer paso
del bucle lanza KeyError y no se devuelve ninguna fila. La función
`generar_features_futuras` ("FIX DEFINITIVO"), que tolera la ausencia de
residuo, no es invocada por forecast.py. -/
theorem c1_pronostico_aborta_con_esquema_bd :
    ∀ (filas : List Fila) (sarima : Nat → ℚ) (xgbPredict : FilaFeat → ℚ)
      (features_names : List String) (ciudad : String) (hoy : Int) (n : Nat),
      1 ≤ n →
      predecir_hibrido
          { sarima := sarima, xgbPredict := xgbPredict,
            features_names := features_names, ciudad := ciudad, hoy := hoy,
            df_all := dfDesdeBD filas } n
        = .error "KeyError: Column not found: residuo" := by
  intro filas sarima xgbPredict features_names ciudad hoy n hn
  obtain ⟨m, rfl⟩ : ∃ m, n = m + 1 :=
    ⟨n - 1, (Nat.succ_pred_eq_of_pos hn).symm⟩
  unfold predecir_hibrido buclePrediccion
  have hpaso : ∀ (futuro din : List Fila) (i : Nat),
      pasoForecast
          { sarima := sarima, xgbPredict := xgbPredict,
            features_names := features_names, ciudad := ciudad, hoy := hoy,
            df_all := dfDesdeBD filas } futuro din i
        = .error "KeyError: Column not found: residuo" := by
    intro futuro din i
    unfold pasoForecast
    simp [preparar_features_xgb, dfDesdeBD]
  rw [hpaso]

/-- C1 (evaluación en la entrada que falla): con una observación histórica
real del esquema de la base de datos y horizonte 1, el forecast aborta en
lugar de devolver una fila. -/
theorem c1_pronostico_aborta_testigo :
    predecir_hibrido pEjemploBD 1
      = .error "KeyError: Column not found: residuo" :=
  c1_pronostico_aborta_con_esquema_bd [filaEjBD] (fun _ => 12) (fun _ => 1)
    [] "santander" 10 1 (by decide)

/-- C10 (confirmada): `preparar_features_xgb` no muta su argumento. En el
modelo con memoria explícita, la línea 50 (`df = df.copy()`) redirige el
nombre local a una celda nueva y todas las escrituras de columnas del
cuerpo van a esa celda; toda celda preexistente de la memoria — en
particular la del argumento — conserva su valor (columnas, filas, orden y
valores), y el resultado depende solo del valor del argumento. -/
theorem c10_no_mutacion_argumento :
    ∀ (memoria : List DataFrame) (ref : Nat) (modo : Bool) (j : Nat),
      j < memoria.length →
      ((preparar_features_xgb_ref memoria ref modo).1).get? j
        = memoria.get? j := by
  intro memoria ref modo j hj
  unfold preparar_features_xgb_ref
  cases h : memoria.get? ref with
  | none => rfl
  | some df =>
    simp only
    rw [List.get?_eq_getElem?, List.get?_eq_getElem?, List.getElem?_append_left hj]

/-- C10 (testigo): la celda del argumento queda intacta en una memoria de
una celda. -/
theorem c10_no_mutacion_argumento_testigo :
    ((preparar_features_xgb_ref [dfEjConResiduo] 0 true).1).get? 0
      = [dfEjConResiduo].get? 0 :=
  c10_no_mutacion_argumento [dfEjConResiduo] 0 true 0 (by decide)

/-- Toda fila limpia de la carga de entrenamiento tiene temperatura. -/
theorem limpiar_temp_isSome :
    ∀ (datos : List FilaBD) (g : Fila), g ∈ limpiarCarga datos →
      g.temperature_2m_mean.isSome = true := by
  intro datos g hg
  unfold limpiarCarga ordenarPorTime at hg
  rw [List.mem_insertionSort] at hg
  obtain ⟨r, _, hr⟩ := List.mem_filterMap.mp hg
  cases ht : r.time with
  | none => rw [ht] at hr; exact absurd hr (by simp)
  | some t =>
    cases htemp : r.temperature_2m_mean with
    | none => rw [ht, htemp] at hr; exact absurd hr (by simp)
    | some temp =>
      rw [ht, htemp] at hr
      simp only [Option.some.injEq] at hr
      rw [← hr]
      rfl

/-- Toda fila limpia de la carga de entrenamiento aún no tiene columna
`sarima_pred` asignada. -/
theorem limpiar_sarima_none :
    ∀ (datos : List FilaBD) (g : Fila), g ∈ limpiarCarga datos →
      g.sarima_pred = none := by
  intro datos g hg
  unfold limpiarCarga ordenarPorTime at hg
  rw [List.mem_insertionSort] at hg
  obtain ⟨r, _, hr⟩ := List.mem_filterMap.mp hg
  cases ht : r.time with
  | none => rw [ht] at hr; exact absurd hr (by simp)
  | some t =>
    cases htemp : r.temperature_2m_mean with
    | none => rw [ht, htemp] at hr; exact absurd hr (by simp)
    | some temp =>
      rw [ht, htemp] at hr
      simp only [Option.some.injEq] at hr
      rw [← hr]

/-- La fila base de toda fila de features calculada pertenece a la tabla. -/
theorem fila_mem_computarFeats :
    ∀ (l : List Fila) (f : FilaFeat), f ∈ computarFeats l → f.fila ∈ l := by
  intro l f hf
  unfold computarFeats at hf
  obtain ⟨i, hi, hfi⟩ := List.mem_map.mp hf
  rw [List.mem_range] at hi
  unfold featOpcional at hfi
  rw [List.get?_eq_getElem?, List.getElem?_eq_getElem hi] at hfi
  simp only at hfi
  rw [← hfi]
  exact List.getElem_mem hi

/-- Pertenencia a `unicos`: contiene exactamente los elementos de la lista. -/
theorem mem_unicos :
    ∀ (l : List String) (c : String), c ∈ unicos l ↔ c ∈ l := by
  have haux : ∀ (l acc : List String) (c : String),
      c ∈ l.foldl (fun acc c => if acc.contains c then acc else acc ++ [c]) acc
        ↔ c ∈ acc ∨ c ∈ l := by
    intro l
    induction l with
    | nil => intro acc c; simp
    | cons x xs ih =>
      intro acc c
      rw [List.foldl_cons, ih]
      by_cases hx : acc.contains x
      · rw [if_pos hx]
        have hxa : x ∈ acc := by
          rw [← List.elem_iff]; exact hx
        constructor
        · rintro (h | h)
          · exact Or.inl h
          · exact Or.inr (List.mem_cons_of_mem _ h)
        · rintro (h | h)
          · exact Or.inl h
          · rcases List.mem_cons.mp h with h | h
            · exact Or.inl (h ▸ hxa)
            · exact Or.inr h
      · rw [if_neg hx]
        constructor
        · rintro (h | h)
          · rcases List.mem_append.mp h with h | h
            · exact Or.inl h
            · exact Or.inr (List.mem_cons.mpr (Or.inl (List.mem_singleton.mp h)))
          · exact Or.inr (List.mem_cons_of_mem _ h)
        · rintro (h | h)
          · exact Or.inl (List.mem_append.mpr (Or.inl h))
          · rcases List.mem_cons.mp h with h | h
            · exact Or.inl (List.mem_append.mpr (Or.inr (by simp [h])))
            · exact Or.inr h
  intro l c
  rw [unicos, haux]
  simp

/-- Toda fila del DataFrame de entrenamiento tiene residuo no nulo: el
dropna de `sarima_pred` (línea 100 de train.py) precede al cálculo del
residuo, y la temperatura viene de filas limpias. -/
theorem dfEntrenamiento_residuo_isSome :
    ∀ (p : ParamsTrain) (f : Fila), f ∈ (dfEntrenamiento p).filas →
      f.residuo.isSome = true := by
  intro p f hf
  unfold dfEntrenamiento at hf
  simp only at hf
  obtain ⟨g, hg, hgf⟩ := List.mem_map.mp hf
  obtain ⟨hgmem, hgs⟩ := List.mem_filter.mp hg
  obtain ⟨g0, hg0, hg0g⟩ := List.mem_map.mp (by
    unfold conSarima at hgmem
    simpa using hgmem)
  have htemp : g.temperature_2m_mean.isSome = true := by
    have h0 : g0.temperature_2m_mean.isSome = true :=
      limpiar_temp_isSome p.datos g0 hg0
    by_cases hc : 730 ≤ cuentaCiudad (limpiarCarga p.datos) g0.estacion
    · rw [if_pos hc] at hg0g; rw [← hg0g]; exact h0
    · rw [if_neg hc] at hg0g; rw [← hg0g]; exact h0
  obtain ⟨a, ha⟩ := Option.isSome_iff_exists.mp htemp
  obtain ⟨b, hb⟩ := Option.isSome_iff_exists.mp hgs
  rw [← hgf, ha, hb]
  rfl

/-- C9 (confirmada): en cada paso del bucle recursivo que se completa, el
potenciador geográfico se aplica al residuo bruto con la dirección de viento
de la fila del paso y la bandera de meteorología real; la bandera es
verdadera exactamente cuando había fila de pronóstico externo para la fecha
objetivo; con persistencia el residuo corregido es el residuo bruto sin
tocar; y la temperatura final del paso es la estimación SARIMA más el
residuo corregido (la fila de resultados la guarda redondeada a dos
decimales, línea 129 del código). -/
theorem c9_potenciador_solo_con_meteo_real :
    ∀ (p : ParamsForecast) (df_futuro dinamico : List Fila) (i : Nat)
      (s : PasoSalida),
      pasoForecast p df_futuro dinamico i = .ok s →
        s.residuo_final
            = potenciador s.es_meteo_real
                s.nueva_fila.wind_direction_10m_dominant s.residuo_pred
          ∧ (s.es_meteo_real = false → s.residuo_final = s.residuo_pred)
          ∧ s.pred_final = p.sarima i + s.residuo_final
          ∧ s.resultado.hibrida = round2 s.pred_final
          ∧ s.resultado.sarima = round2 (p.sarima i)
          ∧ s.es_meteo_real
              = !(df_futuro.filter
                    (fun f => f.time = p.hoy + (i : Int) + 1)).isEmpty := by
  intro p df_futuro dinamico i s h
  unfold pasoForecast at h
  dsimp only at h
  cases hm : (df_futuro.filter (fun f => f.time = p.hoy + (i : Int) + 1)).head? with
  | some r =>
    rw [hm] at h
    simp only at h
    cases hpre : preparar_features_xgb _ false with
    | error e => rw [hpre] at h; exact absurd h (by simp)
    | ok tf =>
      rw [hpre] at h
      simp only at h
      by_cases hf : ¬ p.features_names.all (fun c => tf.columnas.contains c)
      · rw [if_pos hf] at h; exact absurd h (by simp)
      · rw [if_neg hf] at h
        cases hl : tf.filas.getLast? with
        | none => rw [hl] at h; exact absurd h (by simp)
        | some fi =>
          rw [hl] at h
          simp only [Except.ok.injEq] at h
          subst h
          refine ⟨rfl, ?_, rfl, rfl, rfl, ?_⟩
          · intro hfalso; exact absurd hfalso (by simp)
          · have : (df_futuro.filter
                (fun f => f.time = p.hoy + (i : Int) + 1)).isEmpty = false := by
              cases hfil : df_futuro.filter
                  (fun f => f.time = p.hoy + (i : Int) + 1) with
              | nil => rw [hfil] at hm; exact absurd hm (by simp)
              | cons a l => simp [List.isEmpty]
            rw [this]
            rfl
  | none =>
    rw [hm] at h
    simp only at h
    cases hg : dinamico.getLast? with
    | none =>
      rw [hg] at h
      simp only at h
      cases hpre : preparar_features_xgb _ false with
      | error e => rw [hpre] at h; exact absurd h (by simp)
      | ok tf =>
        rw [hpre] at h
        simp only at h
        by_cases hf : ¬ p.features_names.all (fun c => tf.columnas.contains c)
        · rw [if_pos hf] at h; exact absurd h (by simp)
        · rw [if_neg hf] at h
          cases hl : tf.filas.getLast? with
          | none => rw [hl] at h; exact absurd h (by simp)
          | some fi => rw [hl] at h; exact absurd h (by simp)
    | some b =>
      rw [hg] at h
      simp only at h
      cases hpre : preparar_features_xgb _ false with
      | error e => rw [hpre] at h; exact absurd h (by simp)
      | ok tf =>
        rw [hpre] at h
        simp only at h
        by_cases hf : ¬ p.features_names.all (fun c => tf.columnas.contains c)
        · rw [if_pos hf] at h; exact absurd h (by simp)
        · rw [if_neg hf] at h
          cases hl : tf.filas.getLast? with
          | none => rw [hl] at h; exact absurd h (by simp)
          | some fi =>
            rw [hl] at h
            simp only [Except.ok.injEq] at h
            subst h
            refine ⟨rfl, ?_, rfl, rfl, rfl, ?_⟩
            · intro _; simp [potenciador]
            · have : (df_futuro.filter
                  (fun f => f.time = p.hoy + (i : Int) + 1)).isEmpty = true := by
                cases hfil : df_futuro.filter
                    (fun f => f.time = p.hoy + (i : Int) + 1) with
                | nil => simp [List.isEmpty]
                | cons a l => rw [hfil] at hm; exact absurd hm (by simp)
              rw [this]
              rfl

/-- C9 (testigo): un paso concreto con meteorología real (viento del sur,
180 grados) se completa y satisface las igualdades del teorema. -/
theorem c9_potenciador_solo_con_meteo_real_testigo :
    ∃ s : PasoSalida,
      pasoForecast pEjemploOk [filaFuturoEj] histEj16 0 = .ok s ∧
        s.pred_final = pEjemploOk.sarima 0 + s.residuo_final := by
  have hok : esError (pasoForecast pEjemploOk [filaFuturoEj] histEj16 0)
      = false := by with_unfolding_all rfl
  cases hpaso : pasoForecast pEjemploOk [filaFuturoEj] histEj16 0 with
  | error e =>
    rw [hpaso] at hok
    exact absurd hok (by simp [esError])
  | ok s =>
    exact ⟨s, rfl,
      (c9_potenciador_solo_con_meteo_real pEjemploOk [filaFuturoEj]
        histEj16 0 s hpaso).2.2.1⟩

/-- Reducción de `preparar_features_xgb` cuando las tres columnas
requeridas existen. -/
theorem preparar_ok (df : DataFrame) (modo : Bool)
    (h1 : df.hasEstacion = true) (h2 : df.hasTime = true)
    (h3 : df.hasResiduo = true) :
    preparar_features_xgb df modo
      = .ok { columnas := df.columnas ++ columnasFeatures,
              filas := (computarFeats (ordenarFilas df.filas)).filter
                          (filaSuperviviente modo) } := by
  unfold preparar_features_xgb
  rw [if_neg (by simp [h1, h2]), if_neg (by simp [h3])]

/-- C7 (contraejemplo): la reclamación habla de grupos (estación, año, mes),
pero `muestreo_mensual` agrupa SOLO por (año, mes) (línea 59-61 de
muestreo.py: `groupby([dt.year, dt.month])`, sin la estación). Dos
estaciones "a" y "b" con un día cada una en enero de 1970 y N = 1: el grupo
de la estación "a" tiene 1 ≥ N día disponible, pero la salida solo conserva
la fila de "b" (la última del mes combinado) y contiene 0 filas de "a" en
lugar de exactamente 1. -/
theorem c7_muestreo_ignora_estacion_contraejemplo :
    muestreo_mensual [filaMesA, filaMesB] 1 = [filaMesB] := by
  with_unfolding_all rfl

/-- C5 (contraejemplo): la reclamación dice que en modo inferencia se
produce una fila de features por cada fila de entrada. Es falsa: el subset
del dropna (líneas 107-111 de xgb_features.py) incluye las columnas de
lag/rolling en AMBOS modos, y con una sola fila de entrada (lag_1 = NaN) la
salida de inferencia queda vacía en vez de tener una fila. -/
theorem c5_inferencia_descarta_filas_contraejemplo :
    (preparar_features_xgb dfEjConResiduo false).map
        (fun t => t.filas.length) = .ok 0
      ∧ dfEjConResiduo.filas.length = 1 := by
  constructor
  · with_unfolding_all rfl
  · rfl

/-- C5 (enmendada): el conjunto de columnas de salida es el mismo en ambos
modos y en entrenamiento toda fila emitida tiene lag/rolling completos,
pero el modo inferencia de `preparar_features_xgb` NO produce una fila por
cada fila de entrada: también descarta las filas con lag/rolling indefinidos
y solo relaja la exigencia de residuo propio no nulo (la salida de
entrenamiento es exactamente la de inferencia filtrada por residuo no
nulo). La tolerancia a historia ausente con sustitución por cero vive en
`generar_features_futuras`, que sí produce exactamente una fila por paso
siempre que el historial no esté vacío y el índice SARIMA exista (aunque
forecast.py no la invoca). -/
theorem c5_modos_limpieza :
    (∀ df : DataFrame,
      (preparar_features_xgb df true).map TablaFeatures.columnas
          = (preparar_features_xgb df false).map TablaFeatures.columnas
        ∧ (∀ f ∈ filasDe (preparar_features_xgb df false),
            lagRollCompletos f = true)
        ∧ filasDe (preparar_features_xgb df true)
            = (filasDe (preparar_features_xgb df false)).filter
                (fun f => f.fila.residuo.isSome))
    ∧ ∀ (hist : DataFrame) (preds : List ℚ) (step : Nat),
        hist.filas ≠ [] →
        (indicePython preds ((step : Int) - 1)).isSome = true →
        esError (generar_features_futuras hist preds step) = false := by
  constructor
  · intro df
    by_cases h1 : df.hasEstacion = true ∧ df.hasTime = true ∧ df.hasResiduo = true
    · obtain ⟨he, ht, hr⟩ := h1
      rw [preparar_ok df true he ht hr, preparar_ok df false he ht hr]
      refine ⟨rfl, ?_, ?_⟩
      · intro f hf
        simp only [filasDe] at hf
        have := (List.mem_filter.mp hf).2
        simp only [filaSuperviviente, Bool.not_false, Bool.true_or,
          Bool.true_and] at this
        exact this
      · simp only [filasDe]
        rw [List.filter_filter]
        apply List.filter_congr
        intro f _
        simp only [filaSuperviviente]
        cases f.fila.residuo.isSome <;> cases lagRollCompletos f <;> rfl
    · have herr : ∀ modo : Bool, ∃ e, preparar_features_xgb df modo = .error e := by
        intro modo
        unfold preparar_features_xgb
        by_cases hc : ¬ (df.hasEstacion ∧ df.hasTime)
        · rw [if_pos hc]; exact ⟨_, rfl⟩
        · rw [if_neg hc]
          have hres : ¬ df.hasResiduo = true := by
            intro hr
            apply h1
            push_neg at hc
            exact ⟨by simpa using hc.1, by simpa using hc.2, hr⟩
          rw [if_pos (by simpa using hres)]
          exact ⟨_, rfl⟩
      obtain ⟨e1, he1⟩ := herr true
      obtain ⟨e2, he2⟩ := herr false
      have hee : e1 = e2 := by
        unfold preparar_features_xgb at he1 he2
        by_cases hc : ¬ (df.hasEstacion ∧ df.hasTime)
        · rw [if_pos hc] at he1 he2
          simp only [Except.error.injEq] at he1 he2
          rw [← he1, ← he2]
        · rw [if_neg hc] at he1 he2
          by_cases hres : ¬ df.hasResiduo = true
          · rw [if_pos (by simpa using hres)] at he1 he2
            simp only [Except.error.injEq] at he1 he2
            rw [← he1, ← he2]
          · exact absurd (fun hr => h1 ⟨by simpa using (not_not.mp hc).1,
              by simpa using (not_not.mp hc).2, hr⟩) (by simpa using hres)
      rw [he1, he2, hee]
      refine ⟨rfl, ?_, rfl⟩
      intro f hf
      exact absurd hf (by simp [filasDe])
  · intro hist preds step hne hidx
    unfold generar_features_futuras
    dsimp only
    have hlen : (ordenarFilas hist.filas) ≠ [] := by
      intro hnil
      apply hne
      have hp := (List.perm_insertionSort leClave hist.filas).length_eq
      rw [show List.insertionSort leClave hist.filas
            = ordenarFilas hist.filas from rfl, hnil] at hp
      exact List.length_eq_zero.mp hp.symm
    obtain ⟨u, hu⟩ := Option.isSome_iff_exists.mp
      (List.getLast?_isSome.mpr hlen)
    rw [hu]
    obtain ⟨sp, hsp⟩ := Option.isSome_iff_exists.mp hidx
    rw [hsp]
    rfl

/-- C5 (testigo): con un historial de una fila sin columnas de residuo
(sustitución por cero) y un índice SARIMA válido, la generación de la fila
futura se completa sin error. -/
theorem c5_modos_limpieza_testigo :
    esError (generar_features_futuras dfEjGenerar [5] 1) = false :=
  c5_modos_limpieza.2 dfEjGenerar [5] 1 (by simp [dfEjGenerar, filaEj])
    (by with_unfolding_all rfl)

/-- C8 (confirmada): el entrenamiento aborta cuando la carga no deja filas
usables (líneas 53-54 de train.py) y cuando la matriz de features queda
vacía tras el filtrado de entrenamiento (líneas 114-115); si todas las
estaciones se omiten en el ajuste SARIMA, la matriz queda vacía y también
aborta. El "intento de recuperación" reclamado (repetir la generación de
features en modo inferencia antes de rendirse) es observacionalmente un
no-op que no puede rescatar nada: en ese punto toda fila tiene residuo no
nulo (el dropna de `sarima_pred` precede al cálculo del residuo), de modo
que la matriz de inferencia es IDÉNTICA a la de entrenamiento y el aborto
es el mismo resultado con o sin reintento; el teorema lo demuestra como
igualdad incondicional de ambos modos sobre la tabla final. -/
theorem c8_condiciones_aborto_entrenamiento :
    ∀ p : ParamsTrain,
      (limpiarCarga p.datos = [] → esError (entrenar_modelos p) = true)
      ∧ (preparar_features_xgb (dfEntrenamiento p) false
          = preparar_features_xgb (dfEntrenamiento p) true)
      ∧ (filasDe (preparar_features_xgb (dfEntrenamiento p) true) = [] →
          esError (entrenar_modelos p) = true)
      ∧ ((∀ c ∈ unicos ((limpiarCarga p.datos).map (·.estacion)),
            ¬ ciudadAjustada (limpiarCarga p.datos) c) →
          esError (entrenar_modelos p) = true) := by
  intro p
  have hequiv : preparar_features_xgb (dfEntrenamiento p) false
      = preparar_features_xgb (dfEntrenamiento p) true := by
    rw [preparar_ok _ _ rfl rfl rfl, preparar_ok _ _ rfl rfl rfl]
    congr 1
    simp only [TablaFeatures.mk.injEq, true_and]
    apply List.filter_congr
    intro f hf
    have hres : f.fila.residuo.isSome = true :=
      dfEntrenamiento_residuo_isSome p f.fila
        ((List.mem_insertionSort leClave).mp (fila_mem_computarFeats _ f hf))
    simp [filaSuperviviente, hres]
  have habort : filasDe (preparar_features_xgb (dfEntrenamiento p) true) = [] →
      esError (entrenar_modelos p) = true := by
    intro hvacia
    unfold entrenar_modelos
    dsimp only
    by_cases hL : (limpiarCarga p.datos).isEmpty
    · rw [if_pos hL]
      rfl
    · rw [if_neg hL]
      cases hpre : preparar_features_xgb (dfEntrenamiento p) true with
      | error e => rfl
      | ok tabla =>
        have htf : tabla.filas.isEmpty = true := by
          rw [hpre] at hvacia
          rw [List.isEmpty_iff]
          simpa [filasDe] using hvacia
        simp [htf, esError]
  refine ⟨?_, hequiv, habort, ?_⟩
  · intro h
    unfold entrenar_modelos
    dsimp only
    rw [if_pos (by rw [List.isEmpty_iff]; exact h)]
    rfl
  · intro htodas
    apply habort
    have hvacia : (dfEntrenamiento p).filas = [] := by
      unfold dfEntrenamiento
      simp only
      rw [List.map_eq_nil_iff, List.filter_eq_nil_iff]
      intro f hf
      obtain ⟨g, hg, hgf⟩ := List.mem_map.mp (by
        unfold conSarima at hf
        simpa using hf)
      have hnc : ¬ 730 ≤ cuentaCiudad (limpiarCarga p.datos) g.estacion := by
        have := htodas g.estacion
          ((mem_unicos _ _).mpr (List.mem_map_of_mem (·.estacion) hg))
        simpa [ciudadAjustada] using this
      rw [if_neg hnc] at hgf
      rw [← hgf, limpiar_sarima_none p.datos g hg]
      simp
    rw [preparar_ok _ _ rfl rfl rfl]
    simp only [filasDe, hvacia]
    rfl

/-- C8 (testigo): sin datos cargados, el entrenamiento aborta. -/
theorem c8_condiciones_aborto_entrenamiento_testigo :
    esError (entrenar_modelos pEjemploVacio) = true :=
  (c8_condiciones_aborto_entrenamiento pEjemploVacio).1 rfl

/-- Toda fila de la rama de un grupo mensual conserva la clave del grupo. -/
theorem rama_clave (orden : List Fila) (d : Nat) (k' : Int × Nat) :
    ∀ x ∈ (if d ≤ (orden.filter (fun f => claveMes f.time = k')).length
            then colaIloc d (orden.filter (fun f => claveMes f.time = k'))
            else orden.filter (fun f => claveMes f.time = k')),
      claveMes x.time = k' := by
  intro x hx
  have hxg : x ∈ orden.filter (fun f => claveMes f.time = k') := by
    by_cases hc : d ≤ (orden.filter (fun f => claveMes f.time = k')).length
    · rw [if_pos hc] at hx
      unfold colaIloc at hx
      by_cases hd0 : d = 0
      · rwa [if_pos hd0] at hx
      · rw [if_neg hd0] at hx
        exact List.drop_subset _ _ hx
    · rwa [if_neg hc] at hx
  simpa using (List.mem_filter.mp hxg).2

/-- Filtrar una rama mensual por otra clave la anula; por la suya, la deja
entera. -/
theorem filtra_rama (orden : List Fila) (d : Nat) (k k' : Int × Nat) :
    ((if d ≤ (orden.filter (fun f => claveMes f.time = k')).length
        then colaIloc d (orden.filter (fun f => claveMes f.time = k'))
        else orden.filter (fun f => claveMes f.time = k')).filter
      (fun f => claveMes f.time = k))
    = if k' = k
      then (if d ≤ (orden.filter (fun f => claveMes f.time = k)).length
            then colaIloc d (orden.filter (fun f => claveMes f.time = k))
            else orden.filter (fun f => claveMes f.time = k))
      else [] := by
  by_cases hkk : k' = k
  · subst hkk
    rw [if_pos rfl]
    apply List.filter_eq_self.mpr
    intro a ha
    simpa using rama_clave orden d k' a ha
  · rw [if_neg hkk]
    apply List.filter_eq_nil_iff.mpr
    intro a ha
    have := rama_clave orden d k' a ha
    simp only [decide_eq_true_eq]
    rw [this]
    exact fun hk => hkk hk

/-- Un flatMap que solo aporta en una clave sin duplicados. -/
theorem flatMap_indicadora {α β : Type} [DecidableEq α] :
    ∀ (cl : List α), cl.Nodup → ∀ (k : α) (v : List β),
      (cl.flatMap (fun k' => if k' = k then v else []))
        = if k ∈ cl then v else [] := by
  intro cl
  induction cl with
  | nil => intro _ k v; simp
  | cons x xs ih =>
    intro hnd k v
    obtain ⟨hx1, hx2⟩ := List.nodup_cons.mp hnd
    rw [List.flatMap_cons]
    by_cases hx : x = k
    · subst hx
      rw [if_pos rfl]
      have hxs : xs.flatMap (fun k' => if k' = x then v else []) = [] := by
        apply List.flatMap_eq_nil_iff.mpr
        intro a ha
        rw [if_neg (fun h => hx1 (by rw [← h]; exact ha))]
      rw [hxs, if_pos (List.mem_cons_self x xs)]
      simp
    · rw [if_neg hx, ih hx2 k v]
      by_cases hk : k ∈ xs
      · rw [if_pos hk, if_pos (List.mem_cons_of_mem _ hk)]
        rfl
      · rw [if_neg hk,
          if_neg (fun h => (List.mem_cons.mp h).elim (fun h2 => hx h2.symm) hk)]
        rfl

/-- Una clave ausente de las claves del muestreo no aparece en la tabla. -/
theorem clave_ausente (filas : List Fila) (k : Int × Nat)
    (hk : k ∉ List.insertionSort leMes
            ((ordenarPorTime filas).map (fun f => claveMes f.time)).dedup) :
    (ordenarPorTime filas).filter (fun f => claveMes f.time = k) = [] := by
  apply List.filter_eq_nil_iff.mpr
  intro a ha
  simp only [decide_eq_true_eq]
  intro hak
  apply hk
  rw [List.mem_insertionSort, List.mem_dedup, ← hak]
  exact List.mem_map.mpr ⟨a, ha, rfl⟩

/-- C7 (enmendada): caracterización del muestreo mensual con la agrupación
REAL del código, por (año, mes) combinando todas las estaciones: para cada
clave mensual, las filas de la salida con esa clave son exactamente las
últimas `d` filas cronológicas del grupo combinado si este tiene al menos
`d` filas, y el grupo entero si no; en particular su número es
min(tamaño del grupo, d). -/
theorem c7_muestreo_mensual_por_mes :
    ∀ (filas : List Fila) (d : Nat), 1 ≤ d → ∀ k : Int × Nat,
      ((muestreo_mensual filas d).filter (fun f => claveMes f.time = k)
          = (if d ≤ ((ordenarPorTime filas).filter
                      (fun f => claveMes f.time = k)).length
             then ((ordenarPorTime filas).filter
                      (fun f => claveMes f.time = k)).drop
                    (((ordenarPorTime filas).filter
                        (fun f => claveMes f.time = k)).length - d)
             else (ordenarPorTime filas).filter
                    (fun f => claveMes f.time = k)))
      ∧ ((muestreo_mensual filas d).filter
            (fun f => claveMes f.time = k)).length
          = min ((ordenarPorTime filas).filter
                    (fun f => claveMes f.time = k)).length d := by
  intro filas d hd k
  have hcola : ∀ l : List Fila, colaIloc d l = l.drop (l.length - d) := by
    intro l
    unfold colaIloc
    rw [if_neg (by omega)]
  have hnod : (List.insertionSort leMes
      ((ordenarPorTime filas).map (fun f => claveMes f.time)).dedup).Nodup :=
    (List.perm_insertionSort leMes _).nodup_iff.mpr (List.nodup_dedup _)
  have hmain : (muestreo_mensual filas d).filter (fun f => claveMes f.time = k)
      = (if d ≤ ((ordenarPorTime filas).filter
                  (fun f => claveMes f.time = k)).length
         then colaIloc d ((ordenarPorTime filas).filter
                  (fun f => claveMes f.time = k))
         else (ordenarPorTime filas).filter (fun f => claveMes f.time = k)) := by
    unfold muestreo_mensual
    dsimp only
    rw [List.filter_flatMap]
    rw [List.flatMap_congr (fun k' _ => filtra_rama (ordenarPorTime filas) d k k')]
    rw [flatMap_indicadora _ hnod k _]
    by_cases hk : k ∈ List.insertionSort leMes
        ((ordenarPorTime filas).map (fun f => claveMes f.time)).dedup
    · rw [if_pos hk]
    · rw [if_neg hk, clave_ausente filas k hk]
      rw [if_neg (by simp; omega)]
  constructor
  · rw [hmain, hcola]
  · rw [hmain]
    by_cases hc : d ≤ ((ordenarPorTime filas).filter
        (fun f => claveMes f.time = k)).length
    · rw [if_pos hc, hcola, List.length_drop]
      omega
    · rw [if_neg hc]
      omega

/-- C7 (testigo): en el ejemplo de dos estaciones con un día cada una en
enero de 1970 y d = 1, el grupo mensual combinado tiene 2 filas y la salida
conserva min(2, 1) = 1. -/
theorem c7_muestreo_mensual_por_mes_testigo :
    ((muestreo_mensual [filaMesA, filaMesB] 1).filter
        (fun f => claveMes f.time = ((1970 : Int), 1))).length
      = min ((ordenarPorTime [filaMesA, filaMesB]).filter
                (fun f => claveMes f.time = ((1970 : Int), 1))).length 1 :=
  (c7_muestreo_mensual_por_mes [filaMesA, filaMesB] 1 (by decide)
    ((1970 : Int), 1)).2

/-! ## Lemas de emparejamiento: cambiar solo el residuo de una fila -/

/-- La clave determina la estación. -/
theorem claveDe_estacion {r r' : Fila} (h : claveDe r = claveDe r') :
    r.estacion = r'.estacion := congrArg Prod.fst h

/-- La clave determina la fecha. -/
theorem claveDe_time {r r' : Fila} (h : claveDe r = claveDe r') :
    r.time = r'.time := congrArg Prod.snd h

/-- El orden de `sort_values` solo mira la clave (lado derecho). -/
theorem leClave_congr_der {r r' : Fila} (h : claveDe r = claveDe r')
    (x : Fila) : leClave x r ↔ leClave x r' := by
  unfold leClave
  rw [claveDe_estacion h, claveDe_time h]

/-- El orden de `sort_values` solo mira la clave (lado izquierdo). -/
theorem leClave_congr_izq {r r' : Fila} (h : claveDe r = claveDe r')
    (y : Fila) : leClave r y ↔ leClave r' y := by
  unfold leClave
  rw [claveDe_estacion h, claveDe_time h]

/-- Insertar un elemento ajeno preserva la descomposición emparejada. -/
theorem oi_mismo_par (x r r' : Fila) (hc : claveDe r = claveDe r') :
    ∀ (c d : List Fila), ∃ c2 d2,
      List.orderedInsert leClave x (c ++ r :: d) = c2 ++ r :: d2 ∧
      List.orderedInsert leClave x (c ++ r' :: d) = c2 ++ r' :: d2 := by
  intro c
  induction c with
  | nil =>
    intro d
    by_cases h : leClave x r
    · refine ⟨[x], d, ?_, ?_⟩
      · simp [List.orderedInsert, if_pos h]
      · simp [List.orderedInsert, if_pos ((leClave_congr_der hc x).mp h)]
    · refine ⟨[], List.orderedInsert leClave x d, ?_, ?_⟩
      · simp [List.orderedInsert, if_neg h]
      · simp [List.orderedInsert,
          if_neg (fun h2 => h ((leClave_congr_der hc x).mpr h2))]
  | cons a c ih =>
    intro d
    obtain ⟨c2, d2, h1, h2⟩ := ih d
    by_cases h : leClave x a
    · refine ⟨x :: a :: c, d, ?_, ?_⟩
      · simp [List.orderedInsert, if_pos h]
      · simp [List.orderedInsert, if_pos h]
    · refine ⟨a :: c2, d2, ?_, ?_⟩
      · rw [List.cons_append, List.orderedInsert, if_neg h]
        show a :: List.orderedInsert leClave x (c ++ r :: d) = _
        rw [h1, List.cons_append]
      · rw [List.cons_append, List.orderedInsert, if_neg h]
        show a :: List.orderedInsert leClave x (c ++ r' :: d) = _
        rw [h2, List.cons_append]

/-- Insertar el elemento modificado produce la misma descomposición. -/
theorem oi_insertar_par (r r' : Fila) (hc : claveDe r = claveDe r') :
    ∀ (s : List Fila), ∃ c d,
      List.orderedInsert leClave r s = c ++ r :: d ∧
      List.orderedInsert leClave r' s = c ++ r' :: d := by
  intro s
  induction s with
  | nil => exact ⟨[], [], rfl, rfl⟩
  | cons y ys ih =>
    by_cases h : leClave r y
    · refine ⟨[], y :: ys, ?_, ?_⟩
      · simp [List.orderedInsert, if_pos h]
      · simp [List.orderedInsert, if_pos ((leClave_congr_izq hc y).mp h)]
    · obtain ⟨c, d, h1, h2⟩ := ih
      refine ⟨y :: c, d, ?_, ?_⟩
      · simp only [List.orderedInsert, if_neg h, h1]
        rfl
      · simp only [List.orderedInsert,
          if_neg (fun h2' => h ((leClave_congr_izq hc y).mpr h2')), h2]
        rfl

/-- Ordenar la tabla original y la tabla con un residuo cambiado produce
listas iguales salvo en la posición de esa fila (estabilidad respecto de
las claves). -/
theorem sort_par (r r' : Fila) (hc : claveDe r = claveDe r') :
    ∀ (a b : List Fila), ∃ c d,
      ordenarFilas (a ++ r :: b) = c ++ r :: d ∧
      ordenarFilas (a ++ r' :: b) = c ++ r' :: d := by
  intro a
  induction a with
  | nil =>
    intro b
    obtain ⟨c, d, h1, h2⟩ :=
      oi_insertar_par r r' hc (List.insertionSort leClave b)
    refine ⟨c, d, ?_, ?_⟩
    · rw [List.nil_append]
      show List.insertionSort leClave (r :: b) = _
      rw [List.insertionSort]
      exact h1
    · rw [List.nil_append]
      show List.insertionSort leClave (r' :: b) = _
      rw [List.insertionSort]
      exact h2
  | cons x a ih =>
    intro b
    obtain ⟨c, d, h1, h2⟩ := ih b
    obtain ⟨c2, d2, g1, g2⟩ := oi_mismo_par x r r' hc c d
    refine ⟨c2, d2, ?_, ?_⟩
    · show ordenarFilas ((x :: a) ++ r :: b) = _
      unfold ordenarFilas at h1 ⊢
      rw [List.cons_append, List.insertionSort, h1]
      exact g1
    · show ordenarFilas ((x :: a) ++ r' :: b) = _
      unfold ordenarFilas at h2 ⊢
      rw [List.cons_append, List.insertionSort, h2]
      exact g2

/-- Acceso emparejado antes de la posición modificada. -/
theorem par_get_lt (c d : List Fila) (r r' : Fila) {i : Nat}
    (hi : i < c.length) :
    (c ++ r :: d).get? i = (c ++ r' :: d).get? i := by
  rw [List.get?_eq_getElem?, List.get?_eq_getElem?,
    List.getElem?_append_left hi, List.getElem?_append_left hi]

/-- Acceso emparejado después de la posición modificada. -/
theorem par_get_gt (c d : List Fila) (r r' : Fila) {i : Nat}
    (hi : c.length < i) :
    (c ++ r :: d).get? i = (c ++ r' :: d).get? i := by
  rw [List.get?_eq_getElem?, List.get?_eq_getElem?,
    List.getElem?_append_right (le_of_lt hi),
    List.getElem?_append_right (le_of_lt hi)]
  obtain ⟨m, hm⟩ : ∃ m, i - c.length = m + 1 := ⟨i - c.length - 1, by omega⟩
  rw [hm, List.getElem?_cons_succ, List.getElem?_cons_succ]

/-- Acceso en la posición modificada. -/
theorem par_get_medio (c d : List Fila) (r : Fila) :
    (c ++ r :: d).get? c.length = some r := by
  rw [List.get?_eq_getElem?, List.getElem?_append_right le_rfl, Nat.sub_self]
  exact List.getElem?_cons_zero

/-- Prefijo común hasta la posición modificada. -/
theorem par_take (c d : List Fila) (r : Fila) {i : Nat} (hi : i ≤ c.length) :
    (c ++ r :: d).take i = c.take i :=
  List.take_append_of_le_length hi

/-- El grupo previo no distingue las dos tablas en posiciones hasta la
modificada inclusive. -/
theorem par_grupoPrevio (c d : List Fila) (r r' : Fila)
    (hest : r.estacion = r'.estacion) {i : Nat} (hi : i ≤ c.length) :
    grupoPrevio (c ++ r :: d) i = grupoPrevio (c ++ r' :: d) i := by
  unfold grupoPrevio
  rcases lt_or_eq_of_le hi with h | h
  · rw [par_get_lt c d r r' h]
    cases (c ++ r' :: d).get? i with
    | none => rfl
    | some fi => rw [par_take c d r (le_of_lt h), par_take c d r' (le_of_lt h)]
  · subst h
    rw [par_get_medio c d r, par_get_medio c d r']
    dsimp only
    rw [par_take c d r le_rfl, par_take c d r' le_rfl, hest]

/-- Lags emparejados hasta la posición modificada inclusive. -/
theorem par_lagVal (c d : List Fila) (r r' : Fila)
    (hest : r.estacion = r'.estacion) {i : Nat} (hi : i ≤ c.length)
    (k : Nat) : lagVal (c ++ r :: d) k i = lagVal (c ++ r' :: d) k i := by
  unfold lagVal
  rw [par_grupoPrevio c d r r' hest hi]

/-- Ventanas de rolling emparejadas hasta la posición modificada. -/
theorem par_ventana (c d : List Fila) (r r' : Fila)
    (hest : r.estacion = r'.estacion) {i : Nat} (hi : i ≤ c.length)
    (r0 : Nat) (hr : r0 ≤ i + 1) :
    ventana (c ++ r :: d) r0 i = ventana (c ++ r' :: d) r0 i := by
  unfold ventana
  apply List.map_congr_left
  intro m hm
  rw [List.mem_range] at hm
  unfold serieVal
  exact par_lagVal c d r r' hest (by omega) 1

/-- Medias de rolling emparejadas hasta la posición modificada. -/
theorem par_rollMean (c d : List Fila) (r r' : Fila)
    (hest : r.estacion = r'.estacion) {i : Nat} (hi : i ≤ c.length)
    (r0 : Nat) :
    rollMeanVal (c ++ r :: d) r0 i = rollMeanVal (c ++ r' :: d) r0 i := by
  unfold rollMeanVal
  by_cases hr : r0 ≤ i + 1
  · rw [if_pos hr, if_pos hr, par_ventana c d r r' hest hi r0 hr]
  · rw [if_neg hr, if_neg hr]

/-- Varianzas de rolling emparejadas hasta la posición modificada. -/
theorem par_rollVar (c d : List Fila) (r r' : Fila)
    (hest : r.estacion = r'.estacion) {i : Nat} (hi : i ≤ c.length)
    (r0 : Nat) :
    rollVarVal (c ++ r :: d) r0 i = rollVarVal (c ++ r' :: d) r0 i := by
  unfold rollVarVal
  by_cases hr : r0 ≤ i + 1
  · rw [if_pos hr, if_pos hr, par_ventana c d r r' hest hi r0 hr]
  · rw [if_neg hr, if_neg hr]

/-- Fila de features emparejada (misma fila base) hasta la posición
modificada inclusive. -/
theorem par_featEn (c d : List Fila) (r r' : Fila)
    (hest : r.estacion = r'.estacion) {i : Nat} (hi : i ≤ c.length)
    (fi : Fila) : featEn (c ++ r :: d) i fi = featEn (c ++ r' :: d) i fi := by
  unfold featEn
  rw [par_lagVal c d r r' hest hi 1, par_lagVal c d r r' hest hi 3,
    par_lagVal c d r r' hest hi 7, par_lagVal c d r r' hest hi 14,
    par_rollMean c d r r' hest hi 3, par_rollMean c d r r' hest hi 7,
    par_rollMean c d r r' hest hi 14, par_rollVar c d r r' hest hi 3,
    par_rollVar c d r r' hest hi 7, par_rollVar c d r r' hest hi 14]

/-- Features totalmente iguales antes de la posición modificada. -/
theorem par_featOpcional_lt (c d : List Fila) (r r' : Fila)
    (hest : r.estacion = r'.estacion) {i : Nat} (hi : i < c.length) :
    featOpcional (c ++ r :: d) i = featOpcional (c ++ r' :: d) i := by
  unfold featOpcional
  rw [par_get_lt c d r r' hi]
  cases (c ++ r' :: d).get? i with
  | none => exact par_featEn c d r r' hest (le_of_lt hi) default
  | some fi => exact par_featEn c d r r' hest (le_of_lt hi) fi

/-- La fila base coincide después de la posición modificada. -/
theorem par_fila_gt (c d : List Fila) (r r' : Fila) {i : Nat}
    (hi : c.length < i) :
    (featOpcional (c ++ r :: d) i).fila = (featOpcional (c ++ r' :: d) i).fila := by
  unfold featOpcional
  rw [par_get_gt c d r r' hi]
  cases (c ++ r' :: d).get? i with
  | none => rfl
  | some fi => rfl

/-- En la posición modificada, las features de lag y rolling coinciden: no
usan el residuo de la propia fila. -/
theorem par_lagRoll_medio (c d : List Fila) (r r' : Fila)
    (hest : r.estacion = r'.estacion) :
    lagRollDe (featOpcional (c ++ r :: d) c.length)
      = lagRollDe (featOpcional (c ++ r' :: d) c.length) := by
  unfold featOpcional
  rw [par_get_medio c d r, par_get_medio c d r']
  unfold lagRollDe featEn
  simp only
  rw [par_lagVal c d r r' hest le_rfl 1, par_lagVal c d r r' hest le_rfl 3,
    par_lagVal c d r r' hest le_rfl 7, par_lagVal c d r r' hest le_rfl 14,
    par_rollMean c d r r' hest le_rfl 3, par_rollMean c d r r' hest le_rfl 7,
    par_rollMean c d r r' hest le_rfl 14, par_rollVar c d r r' hest le_rfl 3,
    par_rollVar c d r r' hest le_rfl 7, par_rollVar c d r r' hest le_rfl 14]

/-- La clave de la fila de features en la posición modificada. -/
theorem par_clave_medio (c d : List Fila) (r : Fila) :
    claveDe (featOpcional (c ++ r :: d) c.length).fila = claveDe r := by
  unfold featOpcional
  rw [par_get_medio c d r]
  rfl

/-- Descomposición de la tabla de features alrededor de una posición. -/
theorem computar_descomp_par (c d : List Fila) (r : Fila) :
    computarFeats (c ++ r :: d)
      = ((List.range c.length).map (featOpcional (c ++ r :: d)))
        ++ featOpcional (c ++ r :: d) c.length
          :: ((List.range d.length).map
                (fun j => featOpcional (c ++ r :: d) (c.length + 1 + j))) := by
  unfold computarFeats
  rw [show (c ++ r :: d).length = c.length + (1 + d.length) by
    simp [List.length_append]
    omega]
  rw [List.range_add, List.map_append, List.map_map]
  congr 1
  rw [List.range_add, List.map_append, List.map_map,
    show List.range 1 = [0] from rfl]
  simp only [List.map_cons, List.map_nil, Function.comp_apply, Function.comp]
  rw [List.singleton_append]
  congr 1
  apply List.map_congr_left
  intro j hj
  show featOpcional (c ++ r :: d) (c.length + (1 + j))
    = featOpcional (c ++ r :: d) (c.length + 1 + j)
  congr 1
  omega

/-- Acceso al sufijo posterior a la posición central. -/
theorem get_sufijo (c d : List Fila) (r : Fila) (j : Nat) :
    (c ++ r :: d).get? (c.length + 1 + j) = d.get? j := by
  rw [List.get?_eq_getElem?, List.get?_eq_getElem?,
    List.getElem?_append_right (by omega : c.length ≤ c.length + 1 + j),
    show c.length + 1 + j - c.length = j + 1 by omega, List.getElem?_cons_succ]

/-- Buscar y proyectar es insensible a un reemplazo tras el prefijo común
cuando ambos reemplazos satisfacen el criterio y proyectan igual. -/
theorem find_map_par {β γ : Type} (q : β → Bool) (proj : β → γ) :
    ∀ (A : List β) (x1 x2 : β) (B1 B2 : List β),
      q x1 = true → q x2 = true → proj x1 = proj x2 →
      ((A ++ x1 :: B1).find? q).map proj
        = ((A ++ x2 :: B2).find? q).map proj := by
  intro A
  induction A with
  | nil =>
    intro x1 x2 B1 B2 h1 h2 hp
    rw [List.nil_append, List.nil_append, List.find?_cons, List.find?_cons,
      h1, h2]
    simp [hp]
  | cons a A ih =>
    intro x1 x2 B1 B2 h1 h2 hp
    rw [List.cons_append, List.cons_append, List.find?_cons, List.find?_cons]
    cases hqa : q a with
    | true => rfl
    | false => exact ih x1 x2 B1 B2 h1 h2 hp

/-- Buscar y proyectar es insensible a sufijos sin aciertos. -/
theorem find_map_none {β γ : Type} (q : β → Bool) (proj : β → γ) :
    ∀ (A B1 B2 : List β),
      (∀ y ∈ B1, q y = false) → (∀ y ∈ B2, q y = false) →
      ((A ++ B1).find? q).map proj = ((A ++ B2).find? q).map proj := by
  intro A
  induction A with
  | nil =>
    intro B1 B2 h1 h2
    rw [List.nil_append, List.nil_append,
      List.find?_eq_none.mpr (fun x hx => by rw [h1 x hx]; simp),
      List.find?_eq_none.mpr (fun x hx => by rw [h2 x hx]; simp)]
  | cons a A ih =>
    intro B1 B2 h1 h2
    rw [List.cons_append, List.cons_append, List.find?_cons, List.find?_cons]
    cases hqa : q a with
    | true => rfl
    | false => exact ih B1 B2 h1 h2

/-- Las features de lag y rolling determinan la condición de supervivencia
del modo inferencia. -/
theorem lagRoll_determina {f1 f2 : FilaFeat}
    (h : lagRollDe f1 = lagRollDe f2) :
    lagRollCompletos f1 = lagRollCompletos f2 := by
  unfold lagRollDe at h
  simp only [List.cons.injEq, and_true] at h
  obtain ⟨e1, e2, e3, e4, e5, e6, e7, e8, e9, e10⟩ := h
  unfold lagRollCompletos
  rw [e1, e2, e3, e4, e5, e6, e7, e8, e9, e10]

/-- Fuera de rango, el cambio de residuo no altera la tabla. -/
theorem actualiza_oob (l : List Fila) (t : Nat) (v : Option ℚ)
    (h : ¬ t < l.length) : actualizaResiduo l t v = l := by
  unfold actualizaResiduo
  rw [List.get?_eq_getElem?, List.getElem?_eq_none (by omega)]

/-- Descomposición de la tabla alrededor de la fila modificada. -/
theorem actualiza_descomp (l : List Fila) (t : Nat) (v : Option ℚ)
    (h : t < l.length) :
    ∃ a f b, l = a ++ f :: b ∧ a.length = t ∧ l.get? t = some f ∧
      actualizaResiduo l t v = a ++ { f with residuo := v } :: b := by
  refine ⟨l.take t, l[t], l.drop (t + 1), ?_, ?_, ?_, ?_⟩
  · conv_lhs => rw [← List.take_append_drop t l]
    rw [List.drop_eq_getElem_cons h]
  · rw [List.length_take]
    omega
  · rw [List.get?_eq_getElem?, List.getElem?_eq_getElem h]
  · unfold actualizaResiduo
    rw [List.get?_eq_getElem?, List.getElem?_eq_getElem h]
    simp only
    rw [List.set_eq_take_append_cons_drop, if_pos h]

/-- C2 (confirmada): no interferencia del residuo propio. Cambiar solo el
residuo de la fila `t` de la tabla de entrada no cambia las features de lag
ni de rolling calculadas para esa fila (identificada por su clave
(estación, fecha), única por la invariante del modelo de datos): los lags
usan desplazamientos ≥ 1 y los rollings la serie desplazada en 1, de modo
que la fila `t` nunca ve su propio residuo. La igualdad vale tanto sobre la
tabla de features calculada (antes del dropna) como sobre la salida emitida
por `preparar_features_xgb` en modo inferencia. (En modo entrenamiento la
PRESENCIA de la fila puede cambiar — el dropna exige residuo propio no
nulo —, pero sus features de lag/rolling tampoco cambian.) -/
theorem c2_no_interferencia_residuo_propio :
    ∀ (filas : List Fila) (t : Nat) (v : Option ℚ),
      (filas.map claveDe).Nodup →
      buscaLagRoll (computarFeats (ordenarFilas (actualizaResiduo filas t v)))
          (claveEn filas t)
        = buscaLagRoll (computarFeats (ordenarFilas filas)) (claveEn filas t)
      ∧ buscaLagRoll
            (filasDe (preparar_features_xgb
              { hasResiduo := true, filas := actualizaResiduo filas t v } false))
            (claveEn filas t)
          = buscaLagRoll
              (filasDe (preparar_features_xgb
                { hasResiduo := true, filas := filas } false))
              (claveEn filas t) := by
  intro filas t v hnod
  by_cases ht : t < filas.length
  swap
  · rw [actualiza_oob filas t v ht]
    exact ⟨rfl, rfl⟩
  obtain ⟨a, f, b, heq, hlent, hget, hupd⟩ := actualiza_descomp filas t v ht
  have hkey : claveEn filas t = claveDe f := by
    unfold claveEn
    rw [hget]
  have hc : claveDe ({ f with residuo := v } : Fila) = claveDe f := rfl
  obtain ⟨c, d, hs1, hs2⟩ := sort_par ({ f with residuo := v } : Fila) f hc a b
  have hest : ({ f with residuo := v } : Fila).estacion = f.estacion := rfl
  have hA : (List.range c.length).map
        (featOpcional (c ++ ({ f with residuo := v } : Fila) :: d))
      = (List.range c.length).map (featOpcional (c ++ f :: d)) := by
    apply List.map_congr_left
    intro i hi
    rw [List.mem_range] at hi
    exact par_featOpcional_lt c d ({ f with residuo := v } : Fila) f hest hi
  have hq1 : (fun fe => decide (claveDe fe.fila = claveDe f))
      (featOpcional (c ++ ({ f with residuo := v } : Fila) :: d) c.length)
        = true := by
    simp only [decide_eq_true_eq]
    rw [par_clave_medio c d ({ f with residuo := v } : Fila)]
    rfl
  have hq2 : (fun fe => decide (claveDe fe.fila = claveDe f))
      (featOpcional (c ++ f :: d) c.length) = true := by
    simp only [decide_eq_true_eq]
    rw [par_clave_medio c d f]
  have hproj : lagRollDe
        (featOpcional (c ++ ({ f with residuo := v } : Fila) :: d) c.length)
      = lagRollDe (featOpcional (c ++ f :: d) c.length) :=
    par_lagRoll_medio c d ({ f with residuo := v } : Fila) f hest
  have hnodup2 : claveDe f ∉ d.map claveDe := by
    have hperm := (List.perm_insertionSort leClave filas).map claveDe
    have hnod2 : ((ordenarFilas filas).map claveDe).Nodup :=
      hperm.nodup_iff.mpr hnod
    rw [show ordenarFilas filas = ordenarFilas (a ++ f :: b) by rw [← heq],
      hs2, List.map_append, List.map_cons] at hnod2
    have hsub : (claveDe f :: d.map claveDe).Nodup :=
      List.Nodup.sublist (List.sublist_append_right (c.map claveDe) _) hnod2
    exact (List.nodup_cons.mp hsub).1
  have hBfalse : ∀ (r0 : Fila) (y : FilaFeat),
      y ∈ (List.range d.length).map
        (fun j => featOpcional (c ++ r0 :: d) (c.length + 1 + j)) →
      (fun fe => decide (claveDe fe.fila = claveDe f)) y = false := by
    intro r0 y hy
    obtain ⟨j, hj, hyj⟩ := List.mem_map.mp hy
    rw [List.mem_range] at hj
    have hfila : y.fila = d[j] := by
      rw [← hyj]
      unfold featOpcional
      rw [get_sufijo c d r0 j, List.get?_eq_getElem?,
        List.getElem?_eq_getElem hj]
      rfl
    simp only [decide_eq_false_iff_not]
    intro hk
    apply hnodup2
    rw [← hk, hfila]
    exact List.mem_map_of_mem claveDe (List.getElem_mem hj)
  constructor
  · rw [hkey, hupd, heq, hs1, hs2]
    rw [computar_descomp_par c d ({ f with residuo := v } : Fila),
      computar_descomp_par c d f, hA]
    unfold buscaLagRoll
    exact find_map_par _ lagRollDe _ _ _ _ _ hq1 hq2 hproj
  · rw [hkey, hupd, heq]
    rw [preparar_ok _ false rfl rfl rfl, preparar_ok _ false rfl rfl rfl]
    simp only [filasDe]
    rw [hs1, hs2]
    rw [computar_descomp_par c d ({ f with residuo := v } : Fila),
      computar_descomp_par c d f, hA]
    rw [List.filter_append, List.filter_append, List.filter_cons,
      List.filter_cons]
    have hcond : filaSuperviviente false
          (featOpcional (c ++ ({ f with residuo := v } : Fila) :: d) c.length)
        = filaSuperviviente false (featOpcional (c ++ f :: d) c.length) := by
      simp only [filaSuperviviente, Bool.not_false, Bool.true_or,
        Bool.true_and]
      exact lagRoll_determina hproj
    unfold buscaLagRoll
    cases hcv : filaSuperviviente false (featOpcional (c ++ f :: d) c.length)
    · rw [hcond, hcv, if_neg (by simp), if_neg (by simp)]
      apply find_map_none
      · intro y hy
        exact hBfalse _ y (List.mem_of_mem_filter hy)
      · intro y hy
        exact hBfalse _ y (List.mem_of_mem_filter hy)
    · rw [hcond, hcv, if_pos rfl, if_pos rfl]
      exact find_map_par _ lagRollDe _ _ _ _ _ hq1 hq2 hproj

/-- C2 (testigo): cambiar el residuo del segundo día no altera sus features
de lag/rolling en una tabla concreta de dos días. -/
theorem c2_no_interferencia_residuo_propio_testigo :
    buscaLagRoll
        (computarFeats (ordenarFilas (actualizaResiduo filasEjDosDias 1 none)))
        (claveEn filasEjDosDias 1)
      = buscaLagRoll (computarFeats (ordenarFilas filasEjDosDias))
          (claveEn filasEjDosDias 1) :=
  (c2_no_interferencia_residuo_propio filasEjDosDias 1 none (by decide)).1

/-! ## Lemas de bloque por estación (C3) -/

/-- Insertar por delante cuando el elemento precede a toda la lista. -/
theorem oi_delante (x : Fila) (s : List Fila)
    (h : ∀ z ∈ s, leClave x z) :
    List.orderedInsert leClave x s = x :: s := by
  cases s with
  | nil => rfl
  | cons z zs =>
    rw [List.orderedInsert, if_pos (h z (List.mem_cons_self z zs))]

/-- El filtrado conmuta con la inserción ordenada en una lista ordenada. -/
theorem oi_filtro (q : Fila → Bool) (x : Fila) :
    ∀ (s : List Fila), s.Sorted leClave →
      (List.orderedInsert leClave x s).filter q
        = if q x then List.orderedInsert leClave x (s.filter q)
          else s.filter q := by
  intro s
  induction s with
  | nil =>
    intro _
    rw [List.orderedInsert]
    cases hq : q x
    · simp [List.filter, hq]
    · simp [List.filter, hq]
  | cons y ys ih =>
    intro hsort
    obtain ⟨hy, hsort'⟩ := List.sorted_cons.mp hsort
    by_cases h : leClave x y
    · rw [List.orderedInsert, if_pos h, List.filter_cons]
      cases hqx : q x
      · simp
      · have hdel : List.orderedInsert leClave x (List.filter q (y :: ys))
            = x :: List.filter q (y :: ys) := by
          apply oi_delante
          intro z hz
          have hzm := List.mem_of_mem_filter hz
          rcases List.mem_cons.mp hzm with h2 | h2
          · exact h2 ▸ h
          · exact Trans.trans h (hy z h2)
        simp [hdel]
    · rw [List.orderedInsert, if_neg h, List.filter_cons, ih hsort',
        List.filter_cons]
      cases hqy : q y
      · cases hqx : q x
        · simp
        · simp
      · cases hqx : q x
        · simp
        · have hcons : List.orderedInsert leClave x (y :: List.filter q ys)
              = y :: List.orderedInsert leClave x (List.filter q ys) := by
            rw [List.orderedInsert, if_neg h]
          simp [hcons]
          rw [if_neg h]

/-- El filtrado conmuta con la ordenación estable. -/
theorem sort_filtro (q : Fila → Bool) :
    ∀ (l : List Fila), (ordenarFilas l).filter q = ordenarFilas (l.filter q) := by
  intro l
  induction l with
  | nil => rfl
  | cons x xs ih =>
    show (List.orderedInsert leClave x (List.insertionSort leClave xs)).filter q = _
    rw [oi_filtro q x (List.insertionSort leClave xs)
      (List.sorted_insertionSort leClave xs), List.filter_cons]
    have hxfil : ordenarFilas (x :: List.filter q xs)
        = List.orderedInsert leClave x (ordenarFilas (List.filter q xs)) := rfl
    cases hqx : q x
    · simp only [Bool.false_eq_true, if_false]
      exact ih
    · simp only [if_true]
      rw [show List.filter q (List.insertionSort leClave xs)
            = List.filter q (ordenarFilas xs) from rfl, ih, hxfil]

/-- En una lista ordenada por (estación, fecha), las filas de una estación
forman un bloque contiguo. -/
theorem descomp_estacion (L : String) :
    ∀ (s : List Fila), s.Sorted leClave →
      ∃ u m w, s = u ++ (m ++ w)
        ∧ m = s.filter (fun g => decide (g.estacion = L))
        ∧ (∀ x ∈ u, ¬ x.estacion = L) ∧ (∀ x ∈ w, ¬ x.estacion = L) := by
  intro s
  induction s with
  | nil => exact fun _ => ⟨[], [], [], rfl, rfl, by simp, by simp⟩
  | cons x s ih =>
    intro hsort
    obtain ⟨hx, hsort'⟩ := List.sorted_cons.mp hsort
    obtain ⟨u, m, w, heq, hmfil, hu, hw⟩ := ih hsort'
    by_cases hqx : x.estacion = L
    · rcases hu0 : u with _ | ⟨y, u'⟩
      · refine ⟨[], x :: m, w, ?_, ?_, by simp, hw⟩
        · rw [List.nil_append, List.cons_append]
          rw [heq, hu0, List.nil_append]
        · rw [List.filter_cons, if_pos (by simp [hqx]), hmfil]
      · have hmvacio : m = [] := by
          by_contra hne
          obtain ⟨z, hz⟩ := List.exists_mem_of_ne_nil m hne
          have hyL : ¬ y.estacion = L := hu y (by rw [hu0]; exact List.mem_cons_self y u')
          have hzL : z.estacion = L := by
            have := List.mem_filter.mp (hmfil ▸ hz)
            simpa using this.2
          have hxy : leClave x y := hx y (by
            rw [heq, hu0]
            exact List.mem_append.mpr (Or.inl (List.mem_cons_self y u')))
          have hyz : leClave y z := by
            have hscons : s = y :: (u' ++ (m ++ w)) := by
              rw [heq, hu0, List.cons_append]
            have := (List.sorted_cons.mp (hscons ▸ hsort')).1
            exact this z (List.mem_append.mpr (Or.inr (List.mem_append.mpr (Or.inl hz))))
          have hLy : y.estacion > (L : String) := by
            rcases hxy with h2 | ⟨h2, _⟩
            · rw [hqx] at h2
              exact h2
            · exact absurd (hqx ▸ h2.symm) hyL
          have hyL2 : y.estacion < L := by
            rcases hyz with h2 | ⟨h2, _⟩
            · rw [hzL] at h2
              exact h2
            · exact absurd (hzL ▸ h2) hyL
          exact absurd (hLy.trans hyL2) (lt_irrefl L)
        refine ⟨[], [x], s, ?_, ?_, by simp, ?_⟩
        · simp
        · rw [List.filter_cons, if_pos (by simp [hqx])]
          rw [← hmfil, hmvacio]
        · intro z hz
          have : z ∈ List.filter (fun g => decide (g.estacion = L)) s
              → False := by
            intro hmem
            rw [← hmfil, hmvacio] at hmem
            exact absurd hmem (List.not_mem_nil z)
          intro hzL
          exact this (List.mem_filter.mpr ⟨hz, by simp [hzL]⟩)
    · refine ⟨x :: u, m, w, ?_, ?_, ?_, hw⟩
      · rw [List.cons_append, heq]
      · rw [List.filter_cons, if_neg (by simp [hqx]), hmfil]
      · intro z hz
        rcases List.mem_cons.mp hz with h2 | h2
        · rw [h2]
          exact hqx
        · exact hu z h2

/-- Acceso dentro del bloque de la estación. -/
theorem bloque_get (u m w : List Fila) {j : Nat} (hj : j < m.length) :
    (u ++ (m ++ w)).get? (u.length + j) = m.get? j := by
  rw [List.get?_eq_getElem?, List.get?_eq_getElem?,
    List.getElem?_append_right (by omega : u.length ≤ u.length + j),
    show u.length + j - u.length = j by omega, List.getElem?_append_left hj]

/-- Prefijo hasta una posición del bloque. -/
theorem bloque_take (u m w : List Fila) {j : Nat} (hj : j ≤ m.length) :
    (u ++ (m ++ w)).take (u.length + j) = u ++ m.take j := by
  rw [List.take_append, List.take_append_of_le_length hj]

/-- El grupo previo dentro del bloque coincide con el del bloque solo. -/
theorem bloque_grupo (u m w : List Fila) (L : String)
    (hu : ∀ x ∈ u, ¬ x.estacion = L) (hm : ∀ x ∈ m, x.estacion = L)
    {j : Nat} (hj : j < m.length) :
    grupoPrevio (u ++ (m ++ w)) (u.length + j) = grupoPrevio m j := by
  unfold grupoPrevio
  have h1 : (u ++ (m ++ w)).get? (u.length + j) = some m[j] := by
    rw [bloque_get u m w hj, List.get?_eq_getElem?, List.getElem?_eq_getElem hj]
  have h2 : m.get? j = some m[j] := by
    rw [List.get?_eq_getElem?, List.getElem?_eq_getElem hj]
  rw [h1, h2]
  dsimp only
  rw [bloque_take u m w (le_of_lt hj), List.filter_append]
  have hjL : m[j].estacion = L := hm _ (List.getElem_mem hj)
  have hufil : u.filter (fun g => decide (g.estacion = m[j].estacion)) = [] := by
    apply List.filter_eq_nil_iff.mpr
    intro a ha
    simp only [decide_eq_true_eq]
    rw [hjL]
    exact hu a ha
  have htfil : (m.take j).filter (fun g => decide (g.estacion = m[j].estacion))
      = m.take j := by
    apply List.filter_eq_self.mpr
    intro a ha
    simp only [decide_eq_true_eq]
    rw [hjL]
    exact hm a (List.take_subset j m ha)
  rw [hufil, List.nil_append, htfil]

/-- Lags dentro del bloque. -/
theorem bloque_lag (u m w : List Fila) (L : String)
    (hu : ∀ x ∈ u, ¬ x.estacion = L) (hm : ∀ x ∈ m, x.estacion = L)
    {j : Nat} (hj : j < m.length) (k : Nat) :
    lagVal (u ++ (m ++ w)) k (u.length + j) = lagVal m k j := by
  unfold lagVal
  rw [bloque_grupo u m w L hu hm hj]

/-- La serie desplazada es NaN en la primera posición del bloque: el
desplazamiento por grupo no ve los grupos anteriores. -/
theorem bloque_serie_inicio (u m w : List Fila) (L : String)
    (hu : ∀ x ∈ u, ¬ x.estacion = L) (hm : ∀ x ∈ m, x.estacion = L)
    (hne : 0 < m.length) :
    serieVal (u ++ (m ++ w)) u.length = none := by
  unfold serieVal lagVal grupoPrevio
  have hget : (u ++ (m ++ w)).get? u.length = some m[0] := by
    rw [List.get?_eq_getElem?, List.getElem?_append_right le_rfl, Nat.sub_self,
      List.getElem?_append_left hne, List.getElem?_eq_getElem hne]
  rw [hget]
  dsimp only
  rw [List.take_left]
  have hufil : u.filter (fun g => decide (g.estacion = m[0].estacion)) = [] := by
    apply List.filter_eq_nil_iff.mpr
    intro a ha
    simp only [decide_eq_true_eq]
    rw [hm _ (List.getElem_mem hne)]
    exact hu a ha
  rw [hufil]
  simp

/-- Una secuencia con un NaN es NaN. -/
theorem secuencia_con_none : ∀ (ws : List (Option ℚ)),
    none ∈ ws → secuencia ws = none := by
  intro ws
  induction ws with
  | nil => intro h; exact absurd h (List.not_mem_nil none)
  | cons a t ih =>
    intro h
    cases a with
    | none => rfl
    | some x =>
      rcases List.mem_cons.mp h with h2 | h2
      · exact absurd h2.symm (Option.some_ne_none x)
      · rw [show secuencia (some x :: t) = (secuencia t).map (x :: ·) from rfl,
          ih h2]
        rfl

/-- Ventanas de rolling dentro del bloque (ventana contenida en el bloque). -/
theorem bloque_ventana (u m w : List Fila) (L : String)
    (hu : ∀ x ∈ u, ¬ x.estacion = L) (hm : ∀ x ∈ m, x.estacion = L)
    {j : Nat} (hj : j < m.length) (r0 : Nat) (hr : r0 ≤ j + 1) :
    ventana (u ++ (m ++ w)) r0 (u.length + j) = ventana m r0 j := by
  unfold ventana
  apply List.map_congr_left
  intro mm hmm
  rw [List.mem_range] at hmm
  rw [show u.length + j + 1 - r0 + mm = u.length + (j + 1 - r0 + mm) by omega]
  unfold serieVal
  exact bloque_lag u m w L hu hm (by omega) 1

/-- Forma genérica del rolling dentro del bloque: el NaN inicial del bloque
anula exactamente las ventanas que cruzarían la frontera. -/
theorem bloque_roll_gen (u m w : List Fila) (L : String)
    (hu : ∀ x ∈ u, ¬ x.estacion = L) (hm : ∀ x ∈ m, x.estacion = L)
    {j : Nat} (hj : j < m.length) (r0 : Nat) (fn : List ℚ → ℚ) :
    (if r0 ≤ u.length + j + 1
     then (secuencia (ventana (u ++ (m ++ w)) r0 (u.length + j))).map fn
     else none)
      = (if r0 ≤ j + 1 then (secuencia (ventana m r0 j)).map fn else none) := by
  by_cases hr : r0 ≤ j + 1
  · rw [if_pos (by omega), if_pos hr, bloque_ventana u m w L hu hm hj r0 hr]
  · rw [if_neg hr]
    by_cases hr2 : r0 ≤ u.length + j + 1
    · rw [if_pos hr2]
      have hnone : none ∈ ventana (u ++ (m ++ w)) r0 (u.length + j) := by
        unfold ventana
        apply List.mem_map.mpr
        refine ⟨r0 - j - 1, List.mem_range.mpr (by omega), ?_⟩
        rw [show u.length + j + 1 - r0 + (r0 - j - 1) = u.length by omega]
        exact bloque_serie_inicio u m w L hu hm (by omega)
      rw [secuencia_con_none _ hnone]
      rfl
    · rw [if_neg hr2]

/-- Medias de rolling dentro del bloque. -/
theorem bloque_rollMean (u m w : List Fila) (L : String)
    (hu : ∀ x ∈ u, ¬ x.estacion = L) (hm : ∀ x ∈ m, x.estacion = L)
    {j : Nat} (hj : j < m.length) (r0 : Nat) :
    rollMeanVal (u ++ (m ++ w)) r0 (u.length + j) = rollMeanVal m r0 j := by
  unfold rollMeanVal
  exact bloque_roll_gen u m w L hu hm hj r0 mediaDe

/-- Varianzas de rolling dentro del bloque. -/
theorem bloque_rollVar (u m w : List Fila) (L : String)
    (hu : ∀ x ∈ u, ¬ x.estacion = L) (hm : ∀ x ∈ m, x.estacion = L)
    {j : Nat} (hj : j < m.length) (r0 : Nat) :
    rollVarVal (u ++ (m ++ w)) r0 (u.length + j) = rollVarVal m r0 j := by
  unfold rollVarVal
  exact bloque_roll_gen u m w L hu hm hj r0 varMuestral

/-- Fila de features dentro del bloque (misma fila base). -/
theorem bloque_featEn (u m w : List Fila) (L : String)
    (hu : ∀ x ∈ u, ¬ x.estacion = L) (hm : ∀ x ∈ m, x.estacion = L)
    {j : Nat} (hj : j < m.length) (fi : Fila) :
    featEn (u ++ (m ++ w)) (u.length + j) fi = featEn m j fi := by
  unfold featEn
  rw [bloque_lag u m w L hu hm hj 1, bloque_lag u m w L hu hm hj 3,
    bloque_lag u m w L hu hm hj 7, bloque_lag u m w L hu hm hj 14,
    bloque_rollMean u m w L hu hm hj 3, bloque_rollMean u m w L hu hm hj 7,
    bloque_rollMean u m w L hu hm hj 14, bloque_rollVar u m w L hu hm hj 3,
    bloque_rollVar u m w L hu hm hj 7, bloque_rollVar u m w L hu hm hj 14]

/-- Features completas dentro del bloque. -/
theorem bloque_featOpcional (u m w : List Fila) (L : String)
    (hu : ∀ x ∈ u, ¬ x.estacion = L) (hm : ∀ x ∈ m, x.estacion = L)
    {j : Nat} (hj : j < m.length) :
    featOpcional (u ++ (m ++ w)) (u.length + j) = featOpcional m j := by
  unfold featOpcional
  rw [bloque_get u m w hj, List.get?_eq_getElem?, List.getElem?_eq_getElem hj]
  exact bloque_featEn u m w L hu hm hj m[j]

/-- La fila base en la zona previa al bloque. -/
theorem bloque_fila_u (u m w : List Fila) {i : Nat} (hi : i < u.length) :
    (featOpcional (u ++ (m ++ w)) i).fila = u[i] := by
  unfold featOpcional
  rw [List.get?_eq_getElem?, List.getElem?_append_left hi,
    List.getElem?_eq_getElem hi]
  rfl

/-- La fila base en la zona posterior al bloque. -/
theorem bloque_fila_w (u m w : List Fila) {jw : Nat} (hjw : jw < w.length) :
    (featOpcional (u ++ (m ++ w)) (u.length + (m.length + jw))).fila
      = w[jw] := by
  unfold featOpcional
  rw [List.get?_eq_getElem?,
    List.getElem?_append_right (by omega : u.length ≤ u.length + (m.length + jw)),
    show u.length + (m.length + jw) - u.length = m.length + jw by omega,
    List.getElem?_append_right (by omega : m.length ≤ m.length + jw),
    show m.length + jw - m.length = jw by omega,
    List.getElem?_eq_getElem hjw]
  rfl

/-- Filtrar la tabla de features de una tabla en bloques por la estación
del bloque central devuelve exactamente las features del bloque solo: ni
los lags ni los rollings cruzan la frontera de estación. -/
theorem computar_filtro_bloque (u m w : List Fila) (L : String)
    (hu : ∀ x ∈ u, ¬ x.estacion = L) (hw : ∀ x ∈ w, ¬ x.estacion = L)
    (hm : ∀ x ∈ m, x.estacion = L) :
    (computarFeats (u ++ (m ++ w))).filter
        (fun fe => decide (fe.fila.estacion = L))
      = computarFeats m := by
  unfold computarFeats
  rw [show (u ++ (m ++ w)).length = u.length + (m.length + w.length) by
    simp [List.length_append]]
  rw [List.range_add, List.map_append, List.map_map, List.range_add,
    List.map_append, List.map_map]
  rw [List.filter_append, List.filter_append]
  have hA : (List.map (featOpcional (u ++ (m ++ w))) (List.range u.length)).filter
      (fun fe => decide (fe.fila.estacion = L)) = [] := by
    apply List.filter_eq_nil_iff.mpr
    intro y hy
    obtain ⟨i, hi, hyi⟩ := List.mem_map.mp hy
    rw [List.mem_range] at hi
    simp only [decide_eq_true_eq]
    rw [← hyi, bloque_fila_u u m w hi]
    exact hu _ (List.getElem_mem hi)
  have hC : (List.map ((featOpcional (u ++ (m ++ w)) ∘ fun x => u.length + x)
        ∘ fun x => m.length + x) (List.range w.length)).filter
      (fun fe => decide (fe.fila.estacion = L)) = [] := by
    apply List.filter_eq_nil_iff.mpr
    intro y hy
    obtain ⟨jw, hjw, hyj⟩ := List.mem_map.mp hy
    rw [List.mem_range] at hjw
    simp only [decide_eq_true_eq]
    rw [← hyj]
    show ¬ (featOpcional (u ++ (m ++ w)) (u.length + (m.length + jw))).fila.estacion = L
    rw [bloque_fila_w u m w hjw]
    exact hw _ (List.getElem_mem hjw)
  have hB : (List.map (featOpcional (u ++ (m ++ w)) ∘ fun x => u.length + x)
        (List.range m.length)).filter
      (fun fe => decide (fe.fila.estacion = L))
      = List.map (featOpcional (u ++ (m ++ w)) ∘ fun x => u.length + x)
          (List.range m.length) := by
    apply List.filter_eq_self.mpr
    intro y hy
    obtain ⟨j, hj, hyj⟩ := List.mem_map.mp hy
    rw [List.mem_range] at hj
    simp only [decide_eq_true_eq]
    rw [← hyj]
    show (featOpcional (u ++ (m ++ w)) (u.length + j)).fila.estacion = L
    rw [bloque_featOpcional u m w L hu hm hj]
    have : (featOpcional m j).fila = m[j] := by
      unfold featOpcional
      rw [List.get?_eq_getElem?, List.getElem?_eq_getElem hj]
      rfl
    rw [this]
    exact hm _ (List.getElem_mem hj)
  rw [hA, hC, hB, List.nil_append, List.append_nil]
  apply List.map_congr_left
  intro j hj
  rw [List.mem_range] at hj
  show featOpcional (u ++ (m ++ w)) (u.length + j) = featOpcional m j
  exact bloque_featOpcional u m w L hu hm hj

/-- Las features de cada estación en la tabla combinada coinciden con las
de la tabla de esa estación sola. -/
theorem computar_ordenar_filtro (filas : List Fila) (L : String) :
    (computarFeats (ordenarFilas filas)).filter
        (fun fe => decide (fe.fila.estacion = L))
      = computarFeats (ordenarFilas
          (filas.filter (fun g => decide (g.estacion = L)))) := by
  obtain ⟨u, m, w, heq, hmfil, hu, hw⟩ :=
    descomp_estacion L (ordenarFilas filas)
      (List.sorted_insertionSort leClave filas)
  have hm : ∀ x ∈ m, x.estacion = L := by
    intro x hx
    rw [hmfil] at hx
    simpa using (List.mem_filter.mp hx).2
  rw [heq, computar_filtro_bloque u m w L hu hw hm, hmfil, sort_filtro]

/-- C3 (confirmada): los cálculos de lag y rolling nunca cruzan una
frontera de estación: con varias estaciones de fechas entrelazadas en la
misma tabla, las filas de features de cada estación — lags y rollings
incluidos — son exactamente las que produce la tabla de esa estación sola.
Los lags se calculan por grupo; los rollings se aplican a la serie
desplazada completa, pero el NaN que el desplazamiento por grupo deja en la
primera posición de cada estación anula exactamente las ventanas que
cruzarían la frontera. La igualdad vale para la tabla calculada y para la
salida de `preparar_features_xgb` en ambos modos. -/
theorem c3_lags_rollings_no_cruzan_estaciones :
    (∀ (filas : List Fila) (L : String),
      (computarFeats (ordenarFilas filas)).filter
          (fun fe => decide (fe.fila.estacion = L))
        = computarFeats (ordenarFilas
            (filas.filter (fun g => decide (g.estacion = L)))))
    ∧ ∀ (df : DataFrame) (L : String) (modo : Bool),
        (filasDe (preparar_features_xgb df modo)).filter
            (fun fe => decide (fe.fila.estacion = L))
          = filasDe (preparar_features_xgb
              { df with filas := df.filas.filter (fun g => decide (g.estacion = L)) } modo) := by
  constructor
  · exact computar_ordenar_filtro
  · intro df L modo
    by_cases hcols : df.hasEstacion = true ∧ df.hasTime = true
        ∧ df.hasResiduo = true
    · obtain ⟨he, ht, hr⟩ := hcols
      rw [preparar_ok df modo he ht hr,
        preparar_ok { df with filas := df.filas.filter (fun g => decide (g.estacion = L)) } modo he ht hr]
      simp only [filasDe]
      rw [List.filter_comm, computar_ordenar_filtro df.filas L]
    · have herr : ∀ dg : DataFrame, dg.hasEstacion = df.hasEstacion →
          dg.hasTime = df.hasTime → dg.hasResiduo = df.hasResiduo →
          filasDe (preparar_features_xgb dg modo) = [] := by
        intro dg h1 h2 h3
        unfold preparar_features_xgb
        by_cases hc : ¬ (dg.hasEstacion ∧ dg.hasTime)
        · rw [if_pos hc]
          rfl
        · rw [if_neg hc]
          have hres : ¬ dg.hasResiduo = true := by
            rw [h3]
            intro hr
            exact hcols ⟨by rw [← h1]; simpa using (not_not.mp hc).1,
              by rw [← h2]; simpa using (not_not.mp hc).2, hr⟩
          rw [if_pos (by simpa using hres)]
          rfl
      rw [herr df rfl rfl rfl,
        herr { df with filas := df.filas.filter (fun g => decide (g.estacion = L)) } rfl rfl rfl]
      rfl

end OpenMeteo
